import Mathlib

/-! wminfo: reference collection, selection, discovery counts and console hand-off

A shallow embedding of the `actions` package of `wminfo` (Go).  Go slices are
lists (`nil` is `[]`), a Go `panic` is `none`, and the answers of the remote
inventory service are parameters of the functions that ask for them.
-/

set_option autoImplicit false

namespace Wminfo

/-! ## Data model -/

deriving instance DecidableEq for Except

/-- Managed object reference of govmomi (`types.ManagedObjectReference`): the
kind of the object (`Type` in Go) and its identifier (`Value` in Go).  Go compares
the two fields; equality here is the same. -/
structure ManagedObjectReference where
  type : String
  value : String
deriving DecidableEq, Repr

/-- Guest part of a virtual machine summary (`Summary.Guest`), the fields
the actions read. -/
structure GuestSummary where
  HostName : String
  IpAddress : String
deriving DecidableEq, Repr

/-- Storage part of a virtual machine summary (`Summary.Storage`). -/
structure StorageSummary where
  Committed : Int
  Uncommitted : Int
  Unshared : Int
deriving DecidableEq, Repr

/-- Virtual machine record (`mo.VirtualMachine`), the fields the actions read.
`runtimeHost` is `Summary.Runtime.Host`, `guest` is `Summary.Guest` and
`Storage` is `Summary.Storage`, three pointers that may be nil. -/
structure VirtualMachine where
  Self : ManagedObjectReference
  Name : String
  runtimeHost : Option ManagedObjectReference
  Datastore : List ManagedObjectReference
  Network : List ManagedObjectReference
  guest : Option GuestSummary
  Storage : Option StorageSummary
  Annotation : String
deriving DecidableEq, Repr

/-- Record that `Retrieve` loads for a reference when only `name` is asked
for: the reference of the object and its name. -/
structure ManagedEntity where
  Self : ManagedObjectReference
  Name : String
deriving DecidableEq, Repr

/-! ## `collectReferences` (showvm.go) -/

/-- Keys of the `vrefs` dispatch table, in the order the source writes them. -/
def tableKinds : List String :=
  ["HostSystem", "Network", "DistributedVirtualPortgroup", "Datastore"]

/-- The `refs` column of the `vrefs` table: `v k` is `none` when `k` is not a
key (Go's map lookup gives a nil pointer there) and `some refs` for a key. -/
abbrev VRefs := String → Option (List ManagedObjectReference)

/-- The `vrefs` table as the source initialises it: four keys, each with a nil
reference list. -/
def vrefsInit : VRefs := fun k => if k ∈ tableKinds then some [] else none

/-- The closure `addRef` of `collectReferences`.  For each reference, the entry
of its kind is looked up (`none`: the entry is a nil pointer and reading its
`refs` panics); when the reference is already in the list the closure
RETURNS, leaving the remaining arguments unvisited; otherwise the reference is
appended. -/
def addRef (vrefs : VRefs) : List ManagedObjectReference → Option VRefs
  | [] => some vrefs
  | ref :: rest =>
    match vrefs ref.type with
    | none => none
    | some refs =>
      if ref ∈ refs then some vrefs
      else addRef (Function.update vrefs ref.type (some (refs ++ [ref]))) rest

/-- First half of `collectReferences`: `addRef(*host)` when the host pointer
is not nil, then `addRef(vm.Datastore...)`, then `addRef(vm.Network...)`. -/
def collectRefs (vm : VirtualMachine) : Option VRefs :=
  (match vm.runtimeHost with
    | some ref => addRef vrefsInit [ref]
    | none => some vrefsInit) |>.bind fun v1 =>
  (addRef v1 vm.Datastore).bind fun v2 =>
  addRef v2 vm.Network

/-- The four destinations of `collectReferences` (`host`, `network`, `dvp`,
`datastore`) and the local `entities` map filled by the `save` closures. -/
structure Resolved where
  host : List ManagedEntity
  network : List ManagedEntity
  dvp : List ManagedEntity
  datastore : List ManagedEntity
  entities : List (ManagedObjectReference × String)
deriving DecidableEq, Repr

/-- Destinations before any retrieval: all nil. -/
def Resolved.empty : Resolved := ⟨[], [], [], [], []⟩

/-- Destination of a table key (`dest`); another key has no entry. -/
def Resolved.dest (r : Resolved) (k : String) : List ManagedEntity :=
  if k = "HostSystem" then r.host
  else if k = "Network" then r.network
  else if k = "DistributedVirtualPortgroup" then r.dvp
  else if k = "Datastore" then r.datastore
  else []

/-- The entry of key `k` after a successful `Retrieve` into its `dest`
followed by its `save()`, which records the name of each loaded entity. -/
def Resolved.store (r : Resolved) (k : String) (es : List ManagedEntity) : Resolved :=
  let ents := es.foldl (fun m e => m ++ [(e.Self, e.Name)]) r.entities
  if k = "HostSystem" then { r with host := es, entities := ents }
  else if k = "Network" then { r with network := es, entities := ents }
  else if k = "DistributedVirtualPortgroup" then { r with dvp := es, entities := ents }
  else if k = "Datastore" then { r with datastore := es, entities := ents }
  else r

/-- The loop `for _, vref := range vrefs` of `collectReferences`, over the keys
in the order `order` that the map iteration happens to take.  A key whose list
is nil is skipped; a failed `Retrieve` is `log.Panicf`, which does not return. -/
def processRefs (Retrieve : List ManagedObjectReference → Except String (List ManagedEntity))
    (vrefs : VRefs) : List String → Resolved → Option Resolved
  | [], r => some r
  | k :: ks, r =>
    match vrefs k with
    | none => processRefs Retrieve vrefs ks r
    | some [] => processRefs Retrieve vrefs ks r
    | some (x :: xs) =>
      match Retrieve (x :: xs) with
      | .error _ => none
      | .ok es => processRefs Retrieve vrefs ks (r.store k es)

/-- `ShowVM.collectReferences`: `Retrieve` is `showvm.pc.Retrieve` asked for
`name`, `order` the order in which the map `vrefs` is iterated.  The result is
`(host, network, dvp, datastore)`, or `none` when the call panics. -/
def collectReferences (Retrieve : List ManagedObjectReference → Except String (List ManagedEntity))
    (order : List String) (vm : VirtualMachine) :
    Option (List ManagedEntity × List ManagedEntity × List ManagedEntity × List ManagedEntity) :=
  (collectRefs vm).bind fun vrefs =>
  (processRefs Retrieve vrefs order Resolved.empty).map fun r =>
    (r.host, r.network, r.dvp, r.datastore)

/-- The raw references of a record: its runtime host, then its datastore
list, then its network list. -/
def rawRefs (vm : VirtualMachine) : List ManagedObjectReference :=
  vm.runtimeHost.toList ++ vm.Datastore ++ vm.Network

/-- A list with later repeats removed, in first-occurrence order. -/
def dedupFirst (l : List ManagedObjectReference) : List ManagedObjectReference :=
  l.foldl (fun acc x => if x ∈ acc then acc else acc ++ [x]) []

/-- The list of kind `k` that the claimed deduplication gives: the raw
references of kind `k`, later repeats removed. -/
def expectedRefs (vm : VirtualMachine) (k : String) : List ManagedObjectReference :=
  dedupFirst ((rawRefs vm).filter fun r => r.type = k)

/-! ## `Search` (listdss.go, listnet.go, listvms.go) -/

/-- Answers of the govmomi finder that `Search` asks for: the datacenter for
a name (only success or failure matters), and for a pattern the references of
the datastores, datastore clusters and network objects found. -/
structure Finder where
  DatacenterOrDefault : String → Except String Unit
  DatastoreList : String → Except String (List ManagedObjectReference)
  DatastoreClusterList : String → Except String (List ManagedObjectReference)
  NetworkList : String → Except String (List ManagedObjectReference)

/-- The pattern `s[0]` after `if len(s) == 0 { s = []string{"*"} }`. -/
def searchPattern : List String → String
  | [] => "*"
  | m :: _ => m

/-- Reference lists of `ListDSs`. -/
structure ListDSs where
  refs : List ManagedObjectReference
  clusterRefs : List ManagedObjectReference
deriving DecidableEq, Repr

/-- A `ListDSs` as `NewListDSs` builds it: both lists nil. -/
def NewListDSs : ListDSs := ⟨[], []⟩

/-- The loop `for _, ds := range dss { refs = append(refs, ds.Reference()); counter++ }`. -/
def appendCount (found : List ManagedObjectReference)
    (acc : List ManagedObjectReference × Nat) : List ManagedObjectReference × Nat :=
  found.foldl (fun a ds => (a.1 ++ [ds], a.2 + 1)) acc

/-- `ListDSs.Search`: the updated receiver and the returned counter, `none`
when a `log.Panicf` is reached. -/
def ListDSs.Search (listdss : ListDSs) (dc : String) (finder : Finder) (s : List String) :
    Option (ListDSs × Nat) :=
  match finder.DatacenterOrDefault dc with
  | .error _ => none
  | .ok _ =>
    match finder.DatastoreList (searchPattern s) with
    | .error _ => none
    | .ok dss =>
      let a := appendCount dss (listdss.refs, 0)
      match finder.DatastoreClusterList (searchPattern s) with
      | .error _ => none
      | .ok dscs =>
        let b := appendCount dscs (listdss.clusterRefs, a.2)
        some ({ refs := a.1, clusterRefs := b.1 }, b.2)

/-- Reference lists of `ListNets`. -/
structure ListNets where
  refsNet : List ManagedObjectReference
  refsDVPG : List ManagedObjectReference
  refsDVS : List ManagedObjectReference
deriving DecidableEq, Repr

/-- A `ListNets` as `NewListNets` builds it: the three lists nil. -/
def NewListNets : ListNets := ⟨[], [], []⟩

/-- Body of the loop of `ListNets.Search`: the `switch` on the kind of the
reference; a kind without a case changes nothing. -/
def ListNets.step (a : ListNets × Nat) (n : ManagedObjectReference) : ListNets × Nat :=
  if n.type = "Network" then ({ a.1 with refsNet := a.1.refsNet ++ [n] }, a.2 + 1)
  else if n.type = "VmwareDistributedVirtualSwitch" then
    ({ a.1 with refsDVS := a.1.refsDVS ++ [n] }, a.2 + 1)
  else if n.type = "DistributedVirtualPortgroup" then
    ({ a.1 with refsDVPG := a.1.refsDVPG ++ [n] }, a.2 + 1)
  else a

/-- `ListNets.Search`: the updated receiver and the returned counter, `none`
when a `log.Panicf` is reached. -/
def ListNets.Search (listnets : ListNets) (dc : String) (finder : Finder) (s : List String) :
    Option (ListNets × Nat) :=
  match finder.DatacenterOrDefault dc with
  | .error _ => none
  | .ok _ =>
    match finder.NetworkList (searchPattern s) with
    | .error _ => none
    | .ok nets => some (nets.foldl ListNets.step (listnets, 0))

/-- Answers of the view calls of `ListVMs.Search`: retrieving the view
manager, creating the container view, and the `View` list of the container
view. -/
structure ViewService where
  viewManager : Except String Unit
  CreateContainerView : Except String Unit
  containerView : Except String (List ManagedObjectReference)

/-- Fields of `ListVMs`: the references found and the selectors kept for
the detailed view. -/
structure ListVMs where
  refs : List ManagedObjectReference
  search : List String
deriving DecidableEq, Repr

/-- A `ListVMs` as `NewListVMs` builds it. -/
def NewListVMs : ListVMs := ⟨[], []⟩

/-- Body of the loop over `containerView.View`. -/
def ListVMs.step (a : List ManagedObjectReference × Nat) (mor : ManagedObjectReference) :
    List ManagedObjectReference × Nat :=
  if mor.type = "VirtualMachine" then (a.1 ++ [mor], a.2 + 1) else a

/-- `ListVMs.Search`: the updated receiver and the returned counter, `none`
when a `log.Panicf` is reached. -/
def ListVMs.Search (listvms : ListVMs) (dc : String) (finder : Finder) (view : ViewService)
    (s : List String) : Option (ListVMs × Nat) :=
  let s := if s.length = 0 then ["*"] else s
  let search := s.foldl (fun acc m => acc ++ [m]) listvms.search
  match finder.DatacenterOrDefault dc with
  | .error _ => none
  | .ok _ =>
    match view.viewManager with
    | .error _ => none
    | .ok _ =>
      match view.CreateContainerView with
      | .error _ => none
      | .ok _ =>
        match view.containerView with
        | .error _ => none
        | .ok mors =>
          let a := mors.foldl ListVMs.step (listvms.refs, 0)
          some ({ refs := a.1, search := search }, a.2)

/-! ## Console hand-off (base.go, showvm.go) -/

/-- What a `base` gives the console hand-off: the host of the caller-supplied
URL (`b.url.Host`), the host of the client's URL (`b.client...URL().Host`), the
answer of the `AcquireCloneTicket` call (the ticket, or an error), and the
answer of the `Head` request (the SHA-1 digest of the leaf certificate of the
response as a byte sequence, or an error). -/
structure Base where
  urlHost : String
  clientHost : String
  AcquireCloneTicket : Except String String
  Head : Except String (List (Fin 256))

/-- `base.clonesession`: the returned ticket, or the zero value of `token`
when the call fails (the error is only logged). -/
def Base.clonesession (b : Base) : String :=
  match b.AcquireCloneTicket with
  | .ok res => res
  | .error _ => ""

/-- `base.host`. -/
def Base.host (b : Base) : String := b.clientHost

/-- Lower-case hexadecimal digits, `ldigits` of Go's `fmt`. -/
def ldigits : List Char := "0123456789abcdef".toList

/-- A byte under the verb `%x`: two lower-case hexadecimal digits. -/
def lowerHex (b : Fin 256) : List Char :=
  [ldigits.getD (b.val / 16) '0', ldigits.getD (b.val % 16) '0']

/-- `fmt.Sprintf("%x", digest)` for a byte array: each byte as two digits. -/
def rawfingerprint (digest : List (Fin 256)) : List Char := digest.flatMap lowerHex

/-- `strings.ToUpper` on ASCII text. -/
def ToUpper (s : List Char) : List Char := s.map Char.toUpper

/-- The loop `for i := 0; i < len(rawfingerprint)-1; i = i + 2` of
`fingerprint`, from index `i` and with the groups collected so far: it appends
`strings.ToUpper(rawfingerprint[i:i+2])`. -/
def fingerprintLoop (raw : List Char) (i : Nat) (fp : List (List Char)) : List (List Char) :=
  if i + 1 < raw.length then
    fingerprintLoop raw (i + 2) (fp ++ [ToUpper ((raw.drop i).take 2)])
  else fp
termination_by raw.length - i
decreasing_by omega

/-- `strings.Join`: the first element, then each further element after the
separator. -/
def Join : List (List Char) → List Char → List Char
  | [], _ => []
  | e :: rest, sep => e ++ rest.flatMap (fun s => sep ++ s)

/-- The groups `fingerpring` that `fingerprint` collects from a digest. -/
def fingerprintGroups (digest : List (Fin 256)) : List (List Char) :=
  fingerprintLoop (rawfingerprint digest) 0 []

/-- The formatting of `fingerprint`: hex rendering, two-character groups,
upper-cased, joined with `:`. -/
def formatFingerprint (digest : List (Fin 256)) : List Char :=
  Join (fingerprintGroups digest) [':']

/-- `base.fingerprint`: the formatted digest, `none` when the `Head` request
fails (`log.Panicf`). -/
def Base.fingerprint (b : Base) : Option String :=
  match b.Head with
  | .ok digest => some (String.mk (formatFingerprint digest))
  | .error _ => none

/-- Upper-case hexadecimal digits. -/
def udigits : List Char := "0123456789ABCDEF".toList

/-- A byte written as a two-digit uppercase hexadecimal pair. -/
def upperHexPair (b : Fin 256) : List Char :=
  [udigits.getD (b.val / 16) '0', udigits.getD (b.val % 16) '0']

/-- The bytes written as uppercase hexadecimal pairs, in order, separated by
`:` (the fingerprint the specification describes). -/
def colonPairs : List (Fin 256) → List Char
  | [] => []
  | [b] => upperHexPair b
  | b :: c :: rest => upperHexPair b ++ ':' :: colonPairs (c :: rest)

/-- The character class `[A-F0-9]`. -/
def isHexUpper (c : Char) : Bool := ('A' ≤ c && c ≤ 'F') || ('0' ≤ c && c ≤ '9')

/-- Match of `(:[A-F0-9]{2})*$`. -/
def matchesGroups : List Char → Bool
  | [] => true
  | c :: a :: b :: rest => c = ':' && isHexUpper a && isHexUpper b && matchesGroups rest
  | _ => false

/-- Match of `^[A-F0-9]{2}(:[A-F0-9]{2})*$`. -/
def matchesFingerprint : List Char → Bool
  | a :: b :: rest => isHexUpper a && isHexUpper b && matchesGroups rest
  | _ => false

/-- `fmt.Sprintf` on string operands for a format whose verbs are all `%s`:
each `%s` is replaced by the next operand, copied as it is, every other
character is copied.  A format with another verb, or a number of operands
other than the number of verbs, is outside this fragment (`none`). -/
def sprintfAux : List Char → List String → Option (List Char)
  | [], [] => some []
  | [], _ :: _ => none
  | c :: rest, args =>
    if c = '%' then
      match rest, args with
      | v :: rest2, a :: args2 =>
        if v = 's' then (sprintfAux rest2 args2).map (fun out => a.data ++ out) else none
      | _, _ => none
    else (sprintfAux rest args).map (fun out => c :: out)

/-- `fmt.Sprintf` on strings, see `sprintfAux`. -/
def Sprintf (format : String) (args : List String) : Option String :=
  (sprintfAux format.data args).map String.mk

/-- The template `consoleURL` of `ShowVM.console`. -/
def consoleURL : String :=
  "http://%s:%s/console/?vmId=%s&vmName=%s&host=%s&sessionTicket=%s&thumbprint=%s"

/-- `ShowVM.console`: `none` when `fingerprint` panics. -/
def console (b : Base) (vm : VirtualMachine) : Option String :=
  let port := "7331"
  let sessionTicket := b.clonesession
  match b.fingerprint with
  | none => none
  | some thumbprint =>
    let host := b.host
    let vcenter := b.urlHost
    let vmID := vm.Self.value
    Sprintf consoleURL [vcenter, port, vmID, vm.Name, host, sessionTicket, thumbprint]

/-! ## `Print` of the datastore and network reports (listdss.go, listnet.go) -/

/-- `ManagedObjectReference.String` of govmomi, which `%s` prints:
`Type:Value`. -/
def ManagedObjectReference.String (r : ManagedObjectReference) : String :=
  r.type ++ ":" ++ r.value

/-- `contains` of base.go. -/
def contains (a : String) : List String → Bool
  | [] => false
  | b :: list => if b = a then true else contains a list

/-- Datastore record (`mo.Datastore`); `Summary` is a struct value, of which
the type, the capacity and the free space are read. -/
structure Datastore where
  Self : ManagedObjectReference
  Name : String
  SummaryType : String
  Capacity : Int
  FreeSpace : Int
deriving DecidableEq, Repr

/-- Summary of a datastore cluster (`types.StoragePodSummary`). -/
structure StoragePodSummary where
  Capacity : Int
  FreeSpace : Int
deriving DecidableEq, Repr

/-- Datastore cluster record (`mo.StoragePod`); `Summary` is a pointer. -/
structure StoragePod where
  Self : ManagedObjectReference
  Name : String
  Summary : Option StoragePodSummary
deriving DecidableEq, Repr

/-- Summary of a network (`types.NetworkSummary`). -/
structure NetworkSummary where
  Name : String
  Accessible : Bool
deriving DecidableEq, Repr

/-- Network record (`mo.Network`, also the part of
`mo.DistributedVirtualPortgroup` that is read); `Summary` is an interface
value, nil when absent. -/
structure Network where
  Self : ManagedObjectReference
  Summary : Option NetworkSummary
deriving DecidableEq, Repr

/-- Distributed virtual switch record (`mo.DistributedVirtualSwitch`) with the
port-group names of its summary. -/
structure DistributedVirtualSwitch where
  Self : ManagedObjectReference
  Name : String
  PortgroupName : List String
deriving DecidableEq, Repr

/-- The property collector of a report: `Create` gave it, and `Retrieve`
answers, per destination type, for a reference list and a property list. -/
structure Collector where
  RetrieveDatastore : List ManagedObjectReference → List String →
    Except String (List Datastore)
  RetrieveStoragePod : List ManagedObjectReference → List String →
    Except String (List StoragePod)
  RetrieveNetwork : List ManagedObjectReference → List String →
    Except String (List Network)
  RetrieveDVPG : List ManagedObjectReference → List String →
    Except String (List Network)
  RetrieveDVS : List ManagedObjectReference → List String →
    Except String (List DistributedVirtualSwitch)

/-- A `for ... range` loop that writes the cells of one row per record to the
table writer `tw`; `none` when writing a row panics. -/
def printRows {α : Type} (row : α → Option (List String)) :
    List α → List String → Option (List String)
  | [], tw => some tw
  | x :: xs, tw =>
    match row x with
    | none => none
    | some cells => printRows row xs (tw ++ cells)

/-- Row of a datastore. -/
def datastoreRow (ByteSize : Int → String) (p : List String) (dst : Datastore) :
    Option (List String) :=
  some ([dst.Self.String ++ "\t", dst.Name ++ "\t"] ++
    (if contains "summary" p then
      [dst.SummaryType ++ "\t", ByteSize dst.Capacity ++ "\t", ByteSize dst.FreeSpace ++ "\t"]
    else []) ++ ["\n"])

/-- Row of a datastore cluster; reading the summary through a nil pointer
panics. -/
def storagePodRow (ByteSize : Int → String) (p : List String) (dst : StoragePod) :
    Option (List String) :=
  if contains "summary" p then
    match dst.Summary with
    | none => none
    | some sm =>
      some [dst.Self.String ++ "\t", dst.Name ++ "\t", "-" ++ "\t",
        ByteSize sm.Capacity ++ "\t", ByteSize sm.FreeSpace ++ "\t", "\n"]
  else some [dst.Self.String ++ "\t", dst.Name ++ "\t", "\n"]

/-- The cells that a kind group contributes to a report: none when its
retrieval failed, the cells of its records, in order, otherwise. -/
def groupCells {α : Type} (res : Except String (List α)) (cells : α → List String) :
    List String :=
  match res with
  | .error _ => []
  | .ok xs => xs.flatMap cells

/-- `ListDSs.Print`: the cells written to the table writer, in order; `none`
when the call panics.  `ByteSize` is the rendering `units.ByteSize` of
govmomi, `Create` the answer of the collector creation. -/
def ListDSs.Print (listdss : ListDSs) (ByteSize : Int → String)
    (Create : Except String Collector) (p : List String) : Option (List String) :=
  let p := if p.length = 0 then ["summary"] else p
  match Create with
  | .error _ => some []
  | .ok pc =>
    let tw := ["\n", "Reference\tName\tType\tCapacity\tFreeSpace\n",
      "---------\t----\t----\t--------\t---------\n"]
    (match pc.RetrieveDatastore listdss.refs p with
      | .error _ => some tw
      | .ok dsts => printRows (datastoreRow ByteSize p) dsts tw).bind fun tw =>
    (match pc.RetrieveStoragePod listdss.clusterRefs p with
      | .error _ => some tw
      | .ok dstsc => printRows (storagePodRow ByteSize p) dstsc tw).bind fun tw =>
    some (tw ++ ["\n"])

/-- Row of a network or of a distributed port group; `GetNetworkSummary` on
a nil interface panics. -/
def networkRow (net : Network) : Option (List String) :=
  match net.Summary with
  | none => none
  | some sm =>
    some [net.Self.String ++ "\t", sm.Name ++ "\t",
      (if sm.Accessible then "true" else "false") ++ "\t", "\n"]

/-- Row of a distributed virtual switch, followed by its port-group names
when the summary is asked for. -/
def dvsRow (p : List String) (net : DistributedVirtualSwitch) : Option (List String) :=
  some ([net.Self.String ++ "\t", net.Name ++ "\t", "-\t"] ++
    (if contains "summary" p then
      ["\n"] ++ net.PortgroupName.map (fun pg => "    " ++ pg ++ "\n")
    else ["\n"]))

/-- `ListNets.Print`: the cells written to the table writer, in order;
`none` when the call panics. -/
def ListNets.Print (listnets : ListNets) (Create : Except String Collector)
    (p : List String) : Option (List String) :=
  let p := if p.length = 0 then ["summary"] else p
  match Create with
  | .error _ => some []
  | .ok pc =>
    let tw := ["\n", "Reference\tName\tAccessible\n", "---------\t----\t----------\n"]
    (match pc.RetrieveNetwork listnets.refsNet p with
      | .error _ => some tw
      | .ok nets => printRows networkRow nets tw).bind fun tw =>
    (match pc.RetrieveDVPG listnets.refsDVPG p with
      | .error _ => some tw
      | .ok dvpg => printRows networkRow dvpg tw).bind fun tw =>
    (match pc.RetrieveDVS listnets.refsDVS p with
      | .error _ => some tw
      | .ok dvs => printRows (dvsRow p) dvs (tw ++ ["\n"])).bind fun tw =>
    some (tw ++ ["\n"])

/-- The records that the projector returns for the reference list of key
`k`: nothing when the list is nil (no retrieval is made) or the retrieval
fails. -/
def retrievedFor (Retrieve : List ManagedObjectReference → Except String (List ManagedEntity))
    (v : VRefs) (k : String) : List ManagedEntity :=
  match v k with
  | some (x :: xs) =>
    (match Retrieve (x :: xs) with
      | .ok es => es
      | .error _ => [])
  | _ => []

/-! ## Selection in `ShowVM.Print` (showvm.go) -/

/-- `strings.ToLower`: every character is mapped by `unicode.ToLower`, which
turns `A`..`Z` into `a`..`z`, leaves the other ASCII characters as they are,
and maps a character outside ASCII through the case table of Unicode; that
table is the parameter `lowerRune`.  The text is a sequence of characters: a
Go string that is not valid UTF-8 has no counterpart here. -/
def ToLower (lowerRune : Char → Char) (s : String) : String :=
  String.mk (s.data.map fun c => if c.toNat < 128 then Char.toLower c else lowerRune c)

/-- The condition of the filter of `ShowVM.Print` for a machine and a
selector: the identifier equals the selector, or the lower-cased name does, or
the guest summary is not nil and the lower-cased host name or the lower-cased
IP address does. -/
def vmMatches (lowerRune : Char → Char) (vm : VirtualMachine) (s : String) : Bool :=
  decide (vm.Self.value = s) || decide (ToLower lowerRune vm.Name = s) ||
    (match vm.guest with
      | none => false
      | some g =>
        decide (ToLower lowerRune g.HostName = s) || decide (ToLower lowerRune g.IpAddress = s))

/-- The inner loop `for _, s := range showvm.search` of the filter: the
machine is appended at the first selector that matches and the loop is left
(`break`). -/
def selectLoop (lowerRune : Char → Char) (vm : VirtualMachine) :
    List String → List VirtualMachine → List VirtualMachine
  | [], fvms => fvms
  | s :: rest, fvms =>
    if vmMatches lowerRune vm s then fvms ++ [vm] else selectLoop lowerRune vm rest fvms

/-- The list `*pvms` that `ShowVM.Print` counts and reports, from the
selectors `showvm.search` and the retrieved machines `vms`: the filtered list
when there is a selector, all machines otherwise. -/
def ShowVM.pvms (lowerRune : Char → Char) (search : List String)
    (vms : List VirtualMachine) : List VirtualMachine :=
  if search.length > 0 then vms.foldl (fun fvms vm => selectLoop lowerRune vm search fvms) []
  else vms

/-- The machines for which some selector equals the identifier, the
lower-cased name or, with a guest summary, the lower-cased host name or IP
address, in the original order. -/
def selectedSpec (lowerRune : Char → Char) (search : List String)
    (vms : List VirtualMachine) : List VirtualMachine :=
  vms.filter fun vm => search.any fun s => vmMatches lowerRune vm s

/-! ## Annotations in `ShowVM.Print` (showvm.go) -/

/-- `unicode.IsSpace`: the white space characters of Unicode. -/
def IsSpace (c : Char) : Bool :=
  c = '\t' || c = '\n' || c.toNat = 0x0B || c.toNat = 0x0C || c = '\r' || c = ' ' ||
  c.toNat = 0x85 || c.toNat = 0xA0 || c.toNat = 0x1680 ||
  (0x2000 ≤ c.toNat && c.toNat ≤ 0x200A) || c.toNat = 0x2028 || c.toNat = 0x2029 ||
  c.toNat = 0x202F || c.toNat = 0x205F || c.toNat = 0x3000

/-- Scan of `strings.Fields`: `cur` is the field being read (empty between
fields); a white space character closes it. -/
def fieldsAux : List Char → List Char → List (List Char)
  | [], cur => if cur = [] then [] else [cur]
  | c :: rest, cur =>
    if IsSpace c then
      (if cur = [] then fieldsAux rest [] else cur :: fieldsAux rest [])
    else fieldsAux rest (cur ++ [c])

/-- `strings.Fields`: the maximal runs of characters that are not white
space. -/
def Fields (s : List Char) : List (List Char) := fieldsAux s []

/-- The character is not the separator. -/
def isNot (sep : Char) (c : Char) : Bool := decide (c ≠ sep)

/-- `strings.SplitN(s, sep, 2)` for a separator of one character: the text
before the first separator and the text after it, or the whole text alone when
it has no separator. -/
def SplitN2 (s : List Char) (sep : Char) : List (List Char) :=
  match s.dropWhile (isNot sep) with
  | [] => [s]
  | _ :: after => [s.takeWhile (isNot sep), after]

/-- Row of one field of the annotation: `f := strings.SplitN(field, ":", 2)`
and the line `\t<f[0]>:\t<f[1]>\n`; reading `f[1]` of a slice of length one
panics (`none`). -/
def annotationRow (field : List Char) : Option String :=
  match SplitN2 field ':' with
  | [f0, f1] => some ("\t" ++ String.mk f0 ++ ":\t" ++ String.mk f1 ++ "\n")
  | _ => none

/-- The loop `for _, field := range ...` over the fields, with the lines
written so far. -/
def annotationLoop : List (List Char) → List String → Option (List String)
  | [], tw => some tw
  | field :: rest, tw =>
    match annotationRow field with
    | none => none
    | some line => annotationLoop rest (tw ++ [line])

/-- The loop over `strings.Fields(vm.Summary.Config.Annotation)` of
`ShowVM.Print`: the lines written, `none` when a row panics. -/
def annotationRows (note : String) : Option (List String) :=
  annotationLoop (Fields note.data) []

/-- The key of a field: the text before its first `:`. -/
def keyOf (field : List Char) : List Char := field.takeWhile (isNot ':')

/-- The value of a field: everything after its first `:`. -/
def valueOf (field : List Char) : List Char := (field.dropWhile (isNot ':')).drop 1

/-! ## The report loop of `ShowVM.Print` (showvm.go) -/

/-- What the detail block of one machine is written from: the machine, the
four lists of `collectReferences`, the guest summary and the storage summary
read through the pointers `vm.Summary.Guest` and `vm.Summary.Storage`, the
annotation lines and the console URL. -/
structure MachineReport where
  vm : VirtualMachine
  host : List ManagedEntity
  network : List ManagedEntity
  dvp : List ManagedEntity
  datastore : List ManagedEntity
  Guest : GuestSummary
  Storage : StorageSummary
  notes : List String
  console : String
deriving DecidableEq, Repr

/-- Body of the loop `for _, vm := range *pvms` of `ShowVM.Print`, `none`
when it panics: `collectReferences` and `console` are called first; the block
`Guest` reads `vm.Summary.Guest.HostName` and its neighbours without a nil
check; the host identifier is read through `vm.Summary.Runtime.Host` when a
host record was resolved; the block `Storage` reads
`vm.Summary.Storage.Uncommitted` and its neighbours without a nil check; the
annotation loop comes last. -/
def ShowVM.reportMachine
    (Retrieve : List ManagedObjectReference → Except String (List ManagedEntity))
    (order : List String) (b : Base) (vm : VirtualMachine) : Option MachineReport :=
  match collectReferences Retrieve order vm with
  | none => none
  | some (host, network, dvp, datastore) =>
    match console b vm with
    | none => none
    | some url =>
      match vm.guest with
      | none => none
      | some g =>
        if host.length > 0 ∧ vm.runtimeHost = none then none
        else
          match vm.Storage with
          | none => none
          | some st =>
            match annotationRows (VirtualMachine.Annotation vm) with
            | none => none
            | some lines =>
              some { vm := vm, host := host, network := network, dvp := dvp,
                     datastore := datastore, Guest := g, Storage := st, notes := lines,
                     console := url }

/-- The loop `for _, vm := range *pvms`, with the blocks written so far. -/
def ShowVM.reportLoop
    (Retrieve : List ManagedObjectReference → Except String (List ManagedEntity))
    (order : List String) (b : Base) :
    List VirtualMachine → List MachineReport → Option (List MachineReport)
  | [], done => some done
  | vm :: rest, done =>
    match ShowVM.reportMachine Retrieve order b vm with
    | none => none
    | some block => ShowVM.reportLoop Retrieve order b rest (done ++ [block])

/-- What `ShowVM.Print` reports from the retrieved machines `vms`: the
blocks of the selected machines, `none` when the call panics. -/
def ShowVM.report (lowerRune : Char → Char)
    (Retrieve : List ManagedObjectReference → Except String (List ManagedEntity))
    (order : List String) (b : Base) (search : List String) (vms : List VirtualMachine) :
    Option (List MachineReport) :=
  ShowVM.reportLoop Retrieve order b (ShowVM.pvms lowerRune search vms) []

/-! ## `EnvOverride` (main.go) -/

/-- User information of a URL (`url.Userinfo`). -/
structure Userinfo where
  username : String
  password : String
  passwordSet : Bool
deriving DecidableEq, Repr

/-- `url.User`: a user name without password. -/
def User (username : String) : Userinfo := ⟨username, "", false⟩

/-- `url.UserPassword`. -/
def UserPassword (username password : String) : Userinfo := ⟨username, password, true⟩

/-- `Userinfo.Username`, also on a nil receiver. -/
def Username : Option Userinfo → String
  | none => ""
  | some u => u.username

/-- `Userinfo.Password`, also on a nil receiver. -/
def Password : Option Userinfo → String × Bool
  | none => ("", false)
  | some u => (u.password, u.passwordSet)

/-- The part of `url.URL` that the program reads: the user information (a
pointer) and the host. -/
structure URL where
  User : Option Userinfo
  Host : String
deriving DecidableEq, Repr

/-- `GetEnvString`; `Getenv` is `os.Getenv`, empty for an unset variable. -/
def GetEnvString (Getenv : String → String) (v : String) (dflt : String) : String :=
  let r := Getenv v
  if r = "" then dflt else r

/-- `EnvOverride`: the URL after the call. -/
def EnvOverride (Getenv : String → String) (u : URL) : URL :=
  let envUsername := GetEnvString Getenv "WMINFO_USERNAME" ""
  let envPassword := GetEnvString Getenv "WMINFO_PASSWORD" ""
  let u1 : URL :=
    if envUsername ≠ "" then
      match u.User with
      | some usr =>
        if (Password (some usr)).2 then
          { u with User := some (UserPassword envUsername (Password (some usr)).1) }
        else { u with User := some (User envUsername) }
      | none => u
    else u
  if envPassword ≠ "" then
    match u1.User with
    | some usr => { u1 with User := some (UserPassword (Username (some usr)) envPassword) }
    | none => { u1 with User := some (UserPassword "" envPassword) }
  else u1

/-! ## Example records -/

/-- Datastore reference `A`. -/
def dsA : ManagedObjectReference := ⟨"Datastore", "datastore-1"⟩

/-- Datastore reference `B`. -/
def dsB : ManagedObjectReference := ⟨"Datastore", "datastore-2"⟩

/-- Network reference `N1`. -/
def netN1 : ManagedObjectReference := ⟨"Network", "network-1"⟩

/-- Host reference `H1`. -/
def hostH1 : ManagedObjectReference := ⟨"HostSystem", "host-1"⟩

/-- Record with `datastore=[A,B]`, `network=[N1]`, `host=H1`. -/
def vmScenario : VirtualMachine :=
  { Self := ⟨"VirtualMachine", "vm-1"⟩, Name := "web", runtimeHost := some hostH1,
    Datastore := [dsA, dsB], Network := [netN1], guest := none,
    Storage := some ⟨2048, 1024, 2048⟩, Annotation := "" }

/-- Record whose datastore list names `A` twice before `B`. -/
def vmRepeat : VirtualMachine :=
  { Self := ⟨"VirtualMachine", "vm-2"⟩, Name := "db", runtimeHost := none,
    Datastore := [dsA, dsA, dsB], Network := [], guest := none,
    Storage := some ⟨2048, 1024, 2048⟩, Annotation := "" }

/-- Projector that answers every request with one record per reference,
named after the identifier. -/
def retrieveNames (refs : List ManagedObjectReference) : Except String (List ManagedEntity) :=
  .ok (refs.map fun r => ⟨r, r.value⟩)

/-- Projector that fails for a request naming a network and answers like
`retrieveNames` otherwise. -/
def retrieveNoNetwork (refs : List ManagedObjectReference) :
    Except String (List ManagedEntity) :=
  if refs.any (fun r => r.type = "Network") then .error "network group unavailable"
  else retrieveNames refs

/-- Finder of a scope with three datastores and one datastore cluster. -/
def finderScenario : Finder :=
  { DatacenterOrDefault := fun _ => .ok (),
    DatastoreList := fun _ => .ok [dsA, dsB, ⟨"Datastore", "datastore-3"⟩],
    DatastoreClusterList := fun _ => .ok [⟨"StoragePod", "group-p1"⟩],
    NetworkList := fun _ => .ok [netN1] }

/-- Finder whose datastore list names `A` twice. -/
def finderRepeat : Finder :=
  { DatacenterOrDefault := fun _ => .ok (),
    DatastoreList := fun _ => .ok [dsA, dsA],
    DatastoreClusterList := fun _ => .ok [],
    NetworkList := fun _ => .ok [netN1, netN1] }

/-- View calls that all succeed, with one virtual machine. -/
def viewScenario : ViewService :=
  { viewManager := .ok (), CreateContainerView := .ok (),
    containerView := .ok [⟨"VirtualMachine", "vm-1"⟩] }

/-- A 20-byte digest. -/
def digestScenario : List (Fin 256) :=
  [0xda, 0x39, 0xa3, 0xee, 0x5e, 0x6b, 0x4b, 0x0d, 0x32, 0x55,
   0xbf, 0xef, 0x95, 0x60, 0x18, 0x90, 0xaf, 0xd8, 0x07, 0x09]

/-- A `base` whose clone-session call returns the ticket `cst-VCT-52f8` and
whose `Head` request succeeds. -/
def baseScenario : Base :=
  { urlHost := "vcenter.example", clientHost := "10.0.0.5",
    AcquireCloneTicket := .ok "cst-VCT-52f8", Head := .ok digestScenario }

/-- The same `base` with a failing clone-session call. -/
def baseCloneFails : Base :=
  { baseScenario with AcquireCloneTicket := .error "permission denied" }

/-- Collector that answers every request with one record per reference. -/
def collectorScenario : Collector :=
  { RetrieveDatastore := fun refs _ => .ok (refs.map fun r => ⟨r, r.value, "VMFS", 100, 40⟩),
    RetrieveStoragePod := fun refs _ => .ok (refs.map fun r => ⟨r, r.value, some ⟨300, 120⟩⟩),
    RetrieveNetwork := fun refs _ => .ok (refs.map fun r => ⟨r, some ⟨r.value, true⟩⟩),
    RetrieveDVPG := fun refs _ => .ok (refs.map fun r => ⟨r, some ⟨r.value, true⟩⟩),
    RetrieveDVS := fun refs _ => .ok (refs.map fun r => ⟨r, r.value, ["pg-1"]⟩) }

/-- Machine named `Web` with the guest host name `Web.lan`. -/
def vmWeb : VirtualMachine :=
  { Self := ⟨"VirtualMachine", "vm-7"⟩, Name := "Web", runtimeHost := some hostH1,
    Datastore := [dsA], Network := [netN1],
    guest := some ⟨"Web.lan", "10.0.0.7"⟩, Storage := some ⟨2048, 1024, 2048⟩,
    Annotation := "owner:ops env:prod:eu" }

/-- Machine whose network list names an opaque network, a kind without a
row in the dispatch table. -/
def vmOpaque : VirtualMachine :=
  { Self := ⟨"VirtualMachine", "vm-8"⟩, Name := "nsx", runtimeHost := some hostH1,
    Datastore := [dsA], Network := [⟨"OpaqueNetwork", "network-o5"⟩],
    guest := none, Storage := some ⟨2048, 1024, 2048⟩, Annotation := "" }

/-- Environment with the user name `admin` and the password `secret`. -/
def envScenario (v : String) : String :=
  if v = "WMINFO_USERNAME" then "admin" else if v = "WMINFO_PASSWORD" then "secret" else ""

/-- Environment with the user name `admin` only. -/
def envUserOnly (v : String) : String :=
  if v = "WMINFO_USERNAME" then "admin" else ""

/-- A URL without credentials, `https://vcenter.example/sdk`. -/
def urlPlain : URL := { User := none, Host := "vcenter.example" }

/-- Finder whose network list has a network, a host system, a port group, a
switch and a second network. -/
def finderMixed : Finder :=
  { DatacenterOrDefault := fun _ => .ok (),
    DatastoreList := fun _ => .ok [],
    DatastoreClusterList := fun _ => .ok [],
    NetworkList := fun _ => .ok [netN1, hostH1,
      ⟨"DistributedVirtualPortgroup", "dvportgroup-3"⟩,
      ⟨"VmwareDistributedVirtualSwitch", "dvs-2"⟩, ⟨"Network", "network-9"⟩] }

/-! ## Theorems -/

/-! ### Invariants of `addRef` -/

/-- Invariant rule for `addRef`: a property of the table that holds before
the call and is kept by every append holds after the call. -/
theorem addRef_induction (P : VRefs → Prop) (l : List ManagedObjectReference) :
    ∀ v v2 : VRefs, P v →
    (∀ (w : VRefs) (ref : ManagedObjectReference) (refs : List ManagedObjectReference),
      P w → ref ∈ l → w ref.type = some refs → ref ∉ refs →
      P (Function.update w ref.type (some (refs ++ [ref])))) →
    addRef v l = some v2 → P v2 := by
  induction l with
  | nil =>
    intro v v2 hP _ h
    simp only [addRef, Option.some.injEq] at h
    exact h ▸ hP
  | cons ref rest ih =>
    intro v v2 hP hstep h
    unfold addRef at h
    cases hv : v ref.type with
    | none => simp [hv] at h
    | some refs =>
      simp only [hv] at h
      by_cases hmem : ref ∈ refs
      · simp only [hmem, if_true, Option.some.injEq] at h
        exact h ▸ hP
      · simp only [hmem, if_false] at h
        refine ih _ v2 (hstep v ref refs hP (List.mem_cons_self _ _) hv hmem) ?_ h
        intro w r rs hw hr
        exact hstep w r rs hw (List.mem_cons_of_mem _ hr)

/-- Invariant rule for the three `addRef` calls of `collectReferences`. -/
theorem collectRefs_induction (P : VRefs → Prop) (vm : VirtualMachine) (v : VRefs)
    (h0 : P vrefsInit)
    (hstep : ∀ (w : VRefs) (ref : ManagedObjectReference) (refs : List ManagedObjectReference),
      P w → ref ∈ rawRefs vm → w ref.type = some refs → ref ∉ refs →
      P (Function.update w ref.type (some (refs ++ [ref]))))
    (h : collectRefs vm = some v) : P v := by
  unfold collectRefs at h
  simp only [Option.bind_eq_some] at h
  obtain ⟨v1, h1, v2, h2, h3⟩ := h
  have hP1 : P v1 := by
    cases hh : vm.runtimeHost with
    | none =>
      simp only [hh, Option.some.injEq] at h1
      exact h1 ▸ h0
    | some ref =>
      simp only [hh] at h1
      refine addRef_induction P [ref] vrefsInit v1 h0 ?_ h1
      intro w r rs hw hr
      refine hstep w r rs hw ?_
      simp only [List.mem_singleton] at hr
      simp [rawRefs, hh, hr]
  have hP2 : P v2 := by
    refine addRef_induction P vm.Datastore v1 v2 hP1 ?_ h2
    intro w r rs hw hr
    exact hstep w r rs hw (by simp [rawRefs, hr])
  refine addRef_induction P vm.Network v2 v hP2 ?_ h3
  intro w r rs hw hr
  exact hstep w r rs hw (by simp [rawRefs, hr])

/-- Reading the table after an append: the key appended to has the longer
list, every other key is unchanged. -/
theorem update_apply (w : VRefs) (k k2 : String) (l : List ManagedObjectReference) :
    Function.update w k (some l) k2 = if k2 = k then some l else w k2 := by
  by_cases hk : k2 = k
  · subst hk
    simp
  · simp [Function.update, hk]

/-- The three `addRef` calls keep every per-kind list free of repeats. -/
theorem collectRefs_nodup_aux (vm : VirtualMachine) (v : VRefs) (h : collectRefs vm = some v) :
    ∀ k refs, v k = some refs → refs.Nodup := by
  refine collectRefs_induction (fun w => ∀ k refs, w k = some refs → refs.Nodup) vm v ?_ ?_ h
  · intro k refs hk
    unfold vrefsInit at hk
    split at hk
    · simp only [Option.some.injEq] at hk
      subst hk
      exact List.nodup_nil
    · exact absurd hk (by simp)
  · intro w ref refs hw _ hlook hnot k rs hk
    rw [update_apply] at hk
    split at hk
    · simp only [Option.some.injEq] at hk
      subst hk
      exact List.Nodup.append (hw _ _ hlook) (List.nodup_singleton _)
        (by simpa using hnot)
    · exact hw k rs hk

/-- The three `addRef` calls put in the list of kind `k` only raw references
of the record that have kind `k`. -/
theorem collectRefs_mem_aux (vm : VirtualMachine) (v : VRefs) (h : collectRefs vm = some v) :
    ∀ k refs, v k = some refs → ∀ r ∈ refs, r.type = k ∧ r ∈ rawRefs vm := by
  refine collectRefs_induction
    (fun w => ∀ k refs, w k = some refs → ∀ r ∈ refs, r.type = k ∧ r ∈ rawRefs vm) vm v ?_ ?_ h
  · intro k refs hk r hr
    unfold vrefsInit at hk
    split at hk
    · simp only [Option.some.injEq] at hk
      subst hk
      simp at hr
    · exact absurd hk (by simp)
  · intro w ref refs hw hraw hlook _ k rs hk r hr
    rw [update_apply] at hk
    split at hk
    · rename_i hkk
      simp only [Option.some.injEq] at hk
      subst hk
      rcases List.mem_append.mp hr with h1 | h1
      · exact hkk ▸ hw _ _ hlook r h1
      · simp only [List.mem_singleton] at h1
        subst h1
        exact ⟨hkk.symm, hraw⟩
    · exact hw k rs hk r hr

/-- The keys of the table stay the four table kinds through `addRef`, and
the call does not panic when every argument has a table kind. -/
theorem addRef_some (l : List ManagedObjectReference) :
    ∀ v : VRefs, (∀ k, k ∈ tableKinds → (v k).isSome = true) →
    (∀ r ∈ l, r.type ∈ tableKinds) →
    ∃ v2, addRef v l = some v2 ∧ ∀ k, k ∈ tableKinds → (v2 k).isSome = true := by
  induction l with
  | nil =>
    intro v hv _
    exact ⟨v, rfl, hv⟩
  | cons ref rest ih =>
    intro v hv hl
    have href : ref.type ∈ tableKinds := hl ref (List.mem_cons_self _ _)
    obtain ⟨refs, hrefs⟩ := Option.isSome_iff_exists.mp (hv _ href)
    unfold addRef
    simp only [hrefs]
    by_cases hmem : ref ∈ refs
    · simp only [hmem, if_true]
      exact ⟨v, rfl, hv⟩
    · simp only [hmem, if_false]
      refine ih _ ?_ (fun r hr => hl r (List.mem_cons_of_mem _ hr))
      intro k hk
      rw [update_apply]
      split
      · rfl
      · exact hv k hk

/-- When every raw reference of the record has a table kind, the three
`addRef` calls do not panic. -/
theorem collectRefs_some (vm : VirtualMachine) (hk : ∀ r ∈ rawRefs vm, r.type ∈ tableKinds) :
    ∃ v, collectRefs vm = some v := by
  have h0 : ∀ k, k ∈ tableKinds → (vrefsInit k).isSome = true := by
    intro k hk
    simp [vrefsInit, hk]
  have hhost : ∃ v1, (match vm.runtimeHost with
      | some ref => addRef vrefsInit [ref]
      | none => some vrefsInit) = some v1 ∧ ∀ k, k ∈ tableKinds → (v1 k).isSome = true := by
    cases hh : vm.runtimeHost with
    | none => exact ⟨vrefsInit, rfl, h0⟩
    | some ref =>
      refine addRef_some [ref] vrefsInit h0 ?_
      intro r hr
      simp only [List.mem_singleton] at hr
      exact hk r (by simp [rawRefs, hh, hr])
  obtain ⟨v1, h1, hv1⟩ := hhost
  obtain ⟨v2, h2, hv2⟩ := addRef_some vm.Datastore v1 hv1
    (fun r hr => hk r (by simp [rawRefs, hr]))
  obtain ⟨v3, h3, _⟩ := addRef_some vm.Network v2 hv2
    (fun r hr => hk r (by simp [rawRefs, hr]))
  exact ⟨v3, by simp [collectRefs, h1, h2, h3]⟩

/-- Reading a destination after `store`: the stored key has the retrieved
records, every other table key keeps what it had. -/
theorem dest_store (r : Resolved) (k k2 : String) (es : List ManagedEntity)
    (hk2 : k2 ∈ tableKinds) :
    (r.store k es).dest k2 = if k2 = k then es else r.dest k2 := by
  simp only [tableKinds, List.mem_cons, List.mem_singleton, List.not_mem_nil, or_false] at hk2
  rcases hk2 with h | h | h | h <;> subst h <;>
    by_cases h1 : k = "HostSystem" <;> by_cases h2 : k = "Network" <;>
    by_cases h3 : k = "DistributedVirtualPortgroup" <;> by_cases h4 : k = "Datastore" <;>
    simp_all [Resolved.store, Resolved.dest, eq_comm]

/-- Invariant rule for the retrieval loop: a property of the destinations
that holds before the loop and is kept by every successful store holds after. -/
theorem processRefs_induction (Q : Resolved → Prop)
    (Retrieve : List ManagedObjectReference → Except String (List ManagedEntity))
    (v : VRefs) (order : List String) :
    ∀ r r2 : Resolved, Q r →
    (∀ (r : Resolved) (k : String) (x : ManagedObjectReference)
      (xs : List ManagedObjectReference) (es : List ManagedEntity),
      Q r → k ∈ order → v k = some (x :: xs) → Retrieve (x :: xs) = .ok es → Q (r.store k es)) →
    processRefs Retrieve v order r = some r2 → Q r2 := by
  induction order with
  | nil =>
    intro r r2 hQ _ h
    simp only [processRefs, Option.some.injEq] at h
    exact h ▸ hQ
  | cons k ks ih =>
    intro r r2 hQ hstep h
    have hstep2 : ∀ (r : Resolved) (k2 : String) (x : ManagedObjectReference)
        (xs : List ManagedObjectReference) (es : List ManagedEntity),
        Q r → k2 ∈ ks → v k2 = some (x :: xs) → Retrieve (x :: xs) = .ok es →
        Q (r.store k2 es) :=
      fun r k2 x xs es hq hk => hstep r k2 x xs es hq (List.mem_cons_of_mem _ hk)
    unfold processRefs at h
    cases hv : v k with
    | none =>
      simp only [hv] at h
      exact ih r r2 hQ hstep2 h
    | some refs =>
      cases refs with
      | nil =>
        simp only [hv] at h
        exact ih r r2 hQ hstep2 h
      | cons x xs =>
        simp only [hv] at h
        cases hr : Retrieve (x :: xs) with
        | error e => simp [hr] at h
        | ok es =>
          simp only [hr] at h
          exact ih _ r2 (hstep r k x xs es hQ (List.mem_cons_self _ _) hv hr) hstep2 h

/-- A failed retrieval of a key that the loop visits and whose list is not
nil makes the loop panic, whatever the other retrievals give. -/
theorem processRefs_fail
    (Retrieve : List ManagedObjectReference → Except String (List ManagedEntity))
    (v : VRefs) (k : String) (x : ManagedObjectReference) (xs : List ManagedObjectReference)
    (e : String) (hv : v k = some (x :: xs)) (hfail : Retrieve (x :: xs) = .error e)
    (order : List String) (hk : k ∈ order) :
    ∀ r : Resolved, processRefs Retrieve v order r = none := by
  induction order with
  | nil => simp at hk
  | cons k0 ks ih =>
    intro r
    by_cases h0 : k0 = k
    · subst h0
      unfold processRefs
      simp [hv, hfail]
    · have hks : k ∈ ks := by
        rcases List.mem_cons.mp hk with h | h
        · exact absurd h.symm h0
        · exact h
      unfold processRefs
      cases hv0 : v k0 with
      | none => exact ih hks r
      | some refs =>
        cases refs with
        | nil => exact ih hks r
        | cons y ys =>
          cases hr : Retrieve (y :: ys) with
          | error e2 => simp [hr]
          | ok es =>
            simp only [hr]
            exact ih hks _

/-! ### The claims about `collectReferences` -/

/-- C1 (the code at the failing input).  The record `vmRepeat` has the
datastore list `[A, A, B]`, all of a table kind.  The claimed list of kind
`Datastore` is `[A, B]`; the list that `collectReferences` builds is `[A]`:
at the repeated `A` the closure `addRef` returns, and `B` is never visited. -/
theorem collectRefs_repeat_drops_rest :
    (∀ r ∈ rawRefs vmRepeat, r.type ∈ tableKinds) ∧
    expectedRefs vmRepeat "Datastore" = [dsA, dsB] ∧
    (collectRefs vmRepeat).bind (fun v => v "Datastore") = some [dsA] := by
  decide

/-- C2.  After the three `addRef` calls of `collectReferences` no per-kind
list holds the same reference twice, and adding to any table a reference that
its list already holds returns the table unchanged. -/
theorem collectRefs_nodup (vm : VirtualMachine) (v : VRefs) (h : collectRefs vm = some v) :
    (∀ k refs, v k = some refs → refs.Nodup) ∧
    (∀ (w : VRefs) (ref : ManagedObjectReference) (refs : List ManagedObjectReference),
      w ref.type = some refs → ref ∈ refs → addRef w [ref] = some w) := by
  refine ⟨collectRefs_nodup_aux vm v h, ?_⟩
  intro w ref refs hw hmem
  simp [addRef, hw, hmem]

/-- Witness of C2 on the record with `datastore=[A,B]`, `network=[N1]`,
`host=H1`: the calls succeed and the resulting lists have no repeats. -/
theorem collectRefs_nodup_witness :
    ∃ v, collectRefs vmScenario = some v ∧ (∀ k refs, v k = some refs → refs.Nodup) := by
  have hs : (collectRefs vmScenario).isSome = true := by decide
  obtain ⟨v, hv⟩ := Option.isSome_iff_exists.mp hs
  exact ⟨v, hv, (collectRefs_nodup vmScenario v hv).1⟩

/-- C3.  Every reference in a per-kind list built by `collectReferences` is a
raw reference of the record and has the kind of its list; and when the
projector returns records only for the references it is asked for, every
record in each of the four returned lists is of a raw reference of the record
and of the kind of its list. -/
theorem collectReferences_no_fabricated
    (Retrieve : List ManagedObjectReference → Except String (List ManagedEntity))
    (order : List String) (vm : VirtualMachine) (v : VRefs) (h : collectRefs vm = some v) :
    (∀ k refs, v k = some refs → ∀ r ∈ refs, r.type = k ∧ r ∈ rawRefs vm) ∧
    ((∀ refs es, Retrieve refs = .ok es → ∀ e ∈ es, e.Self ∈ refs) →
      ∀ host network dvp datastore,
        collectReferences Retrieve order vm = some (host, network, dvp, datastore) →
        (∀ e ∈ host, e.Self.type = "HostSystem" ∧ e.Self ∈ rawRefs vm) ∧
        (∀ e ∈ network, e.Self.type = "Network" ∧ e.Self ∈ rawRefs vm) ∧
        (∀ e ∈ dvp, e.Self.type = "DistributedVirtualPortgroup" ∧ e.Self ∈ rawRefs vm) ∧
        (∀ e ∈ datastore, e.Self.type = "Datastore" ∧ e.Self ∈ rawRefs vm)) := by
  have hmem := collectRefs_mem_aux vm v h
  refine ⟨hmem, ?_⟩
  intro hproj host network dvp datastore hout
  simp only [collectReferences, h, Option.bind_some] at hout
  obtain ⟨r, hr, heq⟩ := Option.map_eq_some'.mp hout
  have hQ : ∀ k ∈ tableKinds, ∀ e ∈ r.dest k, e.Self.type = k ∧ e.Self ∈ rawRefs vm := by
    refine processRefs_induction
      (fun r => ∀ k ∈ tableKinds, ∀ e ∈ r.dest k, e.Self.type = k ∧ e.Self ∈ rawRefs vm)
      Retrieve v order Resolved.empty r ?_ ?_ hr
    · intro k hk e he
      simp only [tableKinds, List.mem_cons, List.mem_singleton, List.not_mem_nil, or_false] at hk
      rcases hk with hk | hk | hk | hk <;> subst hk <;>
        simp [Resolved.dest, Resolved.empty] at he
    · intro r0 k x xs es hq _ hv hret k2 hk2 e he
      rw [dest_store r0 k k2 es hk2] at he
      split at he
      · rename_i hkk
        subst hkk
        exact hmem _ _ hv e.Self (hproj _ _ hret e he)
      · exact hq k2 hk2 e he
  simp only [Prod.mk.injEq] at heq
  obtain ⟨h1, h2, h3, h4⟩ := heq
  subst h1 h2 h3 h4
  refine ⟨?_, ?_, ?_, ?_⟩
  · exact hQ "HostSystem" (by decide)
  · exact hQ "Network" (by decide)
  · exact hQ "DistributedVirtualPortgroup" (by decide)
  · exact hQ "Datastore" (by decide)

/-- Witness of C3 on the record with `datastore=[A,B]`, `network=[N1]`,
`host=H1` and the projector `retrieveNames`. -/
theorem collectReferences_no_fabricated_witness :
    collectReferences retrieveNames tableKinds vmScenario =
      some ([⟨hostH1, "host-1"⟩], [⟨netN1, "network-1"⟩], [],
        [⟨dsA, "datastore-1"⟩, ⟨dsB, "datastore-2"⟩]) ∧
    (∀ e ∈ [(⟨dsA, "datastore-1"⟩ : ManagedEntity), ⟨dsB, "datastore-2"⟩],
      e.Self.type = "Datastore" ∧ e.Self ∈ rawRefs vmScenario) := by
  have hs : (collectRefs vmScenario).isSome = true := by decide
  obtain ⟨v, hv⟩ := Option.isSome_iff_exists.mp hs
  have hproj : ∀ refs es, retrieveNames refs = .ok es → ∀ e ∈ es, e.Self ∈ refs := by
    intro refs es h e he
    simp only [retrieveNames, Except.ok.injEq] at h
    subst h
    simp only [List.mem_map] at he
    obtain ⟨r, hr, rfl⟩ := he
    exact hr
  have hout : collectReferences retrieveNames tableKinds vmScenario =
      some ([⟨hostH1, "host-1"⟩], [⟨netN1, "network-1"⟩], [],
        [⟨dsA, "datastore-1"⟩, ⟨dsB, "datastore-2"⟩]) := by decide
  exact ⟨hout, ((collectReferences_no_fabricated retrieveNames tableKinds vmScenario v hv).2
    hproj _ _ _ _ hout).2.2.2⟩

/-- C9 (counterexample).  The record names datastores `A`, `B` and network
`N1`; retrieval of the datastore group succeeds and retrieval of the network
group fails.  `collectReferences` does not return the datastore records: it
panics, in the order of the table and in the reverse order alike. -/
theorem collectReferences_network_failure_counterexample :
    retrieveNoNetwork [dsA, dsB] = .ok [⟨dsA, "datastore-1"⟩, ⟨dsB, "datastore-2"⟩] ∧
    retrieveNoNetwork [netN1] = .error "network group unavailable" ∧
    collectReferences retrieveNoNetwork tableKinds vmScenario = none ∧
    collectReferences retrieveNoNetwork tableKinds.reverse vmScenario = none := by
  decide

/-- C9 (amended).  When the list of network references that
`collectReferences` built is not nil and its retrieval fails, the call panics
and returns no records of any kind, in whatever order the table is iterated
and whatever the other retrievals give. -/
theorem collectReferences_network_failure_panics
    (Retrieve : List ManagedObjectReference → Except String (List ManagedEntity))
    (order : List String) (vm : VirtualMachine) (v : VRefs)
    (x : ManagedObjectReference) (xs : List ManagedObjectReference) (e : String)
    (horder : "Network" ∈ order) (hv : collectRefs vm = some v)
    (hnet : v "Network" = some (x :: xs)) (hfail : Retrieve (x :: xs) = .error e) :
    collectReferences Retrieve order vm = none := by
  simp [collectReferences, hv, processRefs_fail Retrieve v "Network" x xs e hnet hfail order horder]

/-- Witness of the amended C9 on the record with `datastore=[A,B]`,
`network=[N1]`, `host=H1` and the projector that fails for networks. -/
theorem collectReferences_network_failure_panics_witness :
    collectReferences retrieveNoNetwork tableKinds vmScenario = none := by
  have hs : (collectRefs vmScenario).isSome = true := by decide
  obtain ⟨v, hv⟩ := Option.isSome_iff_exists.mp hs
  have hnet : v "Network" = some (netN1 :: []) := by
    have h2 : (collectRefs vmScenario).bind (fun w => w "Network") = some [netN1] := by decide
    simpa [hv] using h2
  exact collectReferences_network_failure_panics retrieveNoNetwork tableKinds vmScenario v
    netN1 [] "network group unavailable" (by decide) hv hnet (by decide)

/-! ### `Search` -/

/-- The append-and-count loop appends the found references in order and adds
their number to the counter. -/
theorem appendCount_eq (found : List ManagedObjectReference) :
    ∀ (acc : List ManagedObjectReference) (n : Nat),
    appendCount found (acc, n) = (acc ++ found, n + found.length) := by
  induction found with
  | nil => intro acc n; simp [appendCount]
  | cons x xs ih =>
    intro acc n
    have h := ih (acc ++ [x]) (n + 1)
    simp only [appendCount, List.foldl_cons] at h ⊢
    rw [h]
    simp [Nat.add_assoc, Nat.add_comm 1]

/-- Result of `ListDSs.Search` when the finder answers: both lists grow by
what was found and the counter is the number found. -/
theorem ListDSs_Search_eq (listdss : ListDSs) (dc : String) (finder : Finder) (s : List String)
    (dss dscs : List ManagedObjectReference) (u : Unit)
    (hdc : finder.DatacenterOrDefault dc = .ok u)
    (h1 : finder.DatastoreList (searchPattern s) = .ok dss)
    (h2 : finder.DatastoreClusterList (searchPattern s) = .ok dscs) :
    listdss.Search dc finder s =
      some ({ refs := listdss.refs ++ dss, clusterRefs := listdss.clusterRefs ++ dscs },
        dss.length + dscs.length) := by
  simp [ListDSs.Search, hdc, h1, h2, appendCount_eq]

/-- A successful `ListDSs.Search` had its three finder calls answered. -/
theorem ListDSs_Search_some (listdss : ListDSs) (dc : String) (finder : Finder) (s : List String)
    (l : ListDSs) (n : Nat) (h : listdss.Search dc finder s = some (l, n)) :
    ∃ u dss dscs, finder.DatacenterOrDefault dc = .ok u ∧
      finder.DatastoreList (searchPattern s) = .ok dss ∧
      finder.DatastoreClusterList (searchPattern s) = .ok dscs := by
  unfold ListDSs.Search at h
  cases hdc : finder.DatacenterOrDefault dc with
  | error e => simp [hdc] at h
  | ok u =>
    cases h1 : finder.DatastoreList (searchPattern s) with
    | error e => simp [hdc, h1] at h
    | ok dss =>
      cases h2 : finder.DatastoreClusterList (searchPattern s) with
      | error e => simp [hdc, h1, h2] at h
      | ok dscs => exact ⟨u, dss, dscs, rfl, rfl, rfl⟩

/-- The loop of `ListNets.Search` appends to each list the found references
of its kind, in order, and counts the references appended. -/
theorem ListNets_foldl_step (nets : List ManagedObjectReference) :
    ∀ (a : ListNets) (n : Nat),
    nets.foldl ListNets.step (a, n) =
      ({ refsNet := a.refsNet ++ nets.filter (fun r => r.type = "Network"),
         refsDVPG := a.refsDVPG ++ nets.filter (fun r => r.type = "DistributedVirtualPortgroup"),
         refsDVS := a.refsDVS ++ nets.filter (fun r => r.type = "VmwareDistributedVirtualSwitch") },
       n + (nets.filter (fun r => r.type = "Network")).length
         + (nets.filter (fun r => r.type = "DistributedVirtualPortgroup")).length
         + (nets.filter (fun r => r.type = "VmwareDistributedVirtualSwitch")).length) := by
  induction nets with
  | nil => intro a n; simp
  | cons x xs ih =>
    intro a n
    rw [List.foldl_cons]
    by_cases h1 : x.type = "Network"
    · have e : ListNets.step (a, n) x = ({ a with refsNet := a.refsNet ++ [x] }, n + 1) := by
        simp [ListNets.step, h1]
      rw [e, ih]
      simp [h1]
      omega
    · by_cases h2 : x.type = "VmwareDistributedVirtualSwitch"
      · have e : ListNets.step (a, n) x = ({ a with refsDVS := a.refsDVS ++ [x] }, n + 1) := by
          simp [ListNets.step, h2]
        rw [e, ih]
        simp [h2]
        omega
      · by_cases h3 : x.type = "DistributedVirtualPortgroup"
        · have e : ListNets.step (a, n) x =
              ({ a with refsDVPG := a.refsDVPG ++ [x] }, n + 1) := by
            simp [ListNets.step, h3]
          rw [e, ih]
          simp [h3]
          omega
        · have e : ListNets.step (a, n) x = (a, n) := by
            simp [ListNets.step, h1, h2, h3]
          rw [e, ih]
          simp [h1, h2, h3]

/-- The loop of `ListVMs.Search` appends the found references of kind
`VirtualMachine`, in order, and counts them. -/
theorem ListVMs_foldl_step (mors : List ManagedObjectReference) :
    ∀ (refs : List ManagedObjectReference) (n : Nat),
    mors.foldl ListVMs.step (refs, n) =
      (refs ++ mors.filter (fun r => r.type = "VirtualMachine"),
       n + (mors.filter (fun r => r.type = "VirtualMachine")).length) := by
  induction mors with
  | nil => intro refs n; simp
  | cons x xs ih =>
    intro refs n
    rw [List.foldl_cons]
    by_cases h1 : x.type = "VirtualMachine"
    · have e : ListVMs.step (refs, n) x = (refs ++ [x], n + 1) := by simp [ListVMs.step, h1]
      rw [e, ih]
      simp [h1]
      omega
    · have e : ListVMs.step (refs, n) x = (refs, n) := by simp [ListVMs.step, h1]
      rw [e, ih]
      simp [h1]

/-- Result of `ListNets.Search` when the finder answers: each list grows by
the found references of its kind and the counter is the number appended. -/
theorem ListNets_Search_eq (listnets : ListNets) (dc : String) (finder : Finder)
    (s : List String) (nets : List ManagedObjectReference) (u : Unit)
    (hdc : finder.DatacenterOrDefault dc = .ok u)
    (h3 : finder.NetworkList (searchPattern s) = .ok nets) :
    listnets.Search dc finder s =
      some ({ refsNet := listnets.refsNet ++ nets.filter (fun r => r.type = "Network"),
              refsDVPG := listnets.refsDVPG ++
                nets.filter (fun r => r.type = "DistributedVirtualPortgroup"),
              refsDVS := listnets.refsDVS ++
                nets.filter (fun r => r.type = "VmwareDistributedVirtualSwitch") },
        0 + (nets.filter (fun r => r.type = "Network")).length
          + (nets.filter (fun r => r.type = "DistributedVirtualPortgroup")).length
          + (nets.filter (fun r => r.type = "VmwareDistributedVirtualSwitch")).length) := by
  simp only [ListNets.Search, hdc, h3, ListNets_foldl_step]

/-- Result of `ListVMs.Search` when every call answers: `refs` grows by the
found references of kind `VirtualMachine`, `search` by the selectors. -/
theorem ListVMs_Search_eq (listvms : ListVMs) (dc : String) (finder : Finder)
    (view : ViewService) (s : List String) (mors : List ManagedObjectReference) (u u2 u3 : Unit)
    (hdc : finder.DatacenterOrDefault dc = .ok u)
    (hvm : view.viewManager = .ok u2) (hcv : view.CreateContainerView = .ok u3)
    (h4 : view.containerView = .ok mors) :
    listvms.Search dc finder view s =
      some ({ refs := listvms.refs ++ mors.filter (fun r => r.type = "VirtualMachine"),
              search := (if s.length = 0 then ["*"] else s).foldl (fun acc m => acc ++ [m])
                listvms.search },
        0 + (mors.filter (fun r => r.type = "VirtualMachine")).length) := by
  simp only [ListVMs.Search, hdc, hvm, hcv, h4, ListVMs_foldl_step]

/-- C4 (counterexample).  The finder returns datastore `A` twice and network
`N1` twice; `ListDSs.Search` and `ListNets.Search` on freshly constructed
receivers keep both copies, so `refs` and `refsNet` hold a repeat. -/
theorem Search_keeps_repeats :
    NewListDSs.Search "" finderRepeat [] = some ({ refs := [dsA, dsA], clusterRefs := [] }, 2) ∧
    ¬ [dsA, dsA].Nodup ∧
    NewListNets.Search "" finderRepeat [] =
      some ({ refsNet := [netN1, netN1], refsDVPG := [], refsDVS := [] }, 2) ∧
    ¬ [netN1, netN1].Nodup := by
  decide

/-- C4 (amended).  When the lists returned by the discovery calls hold no
reference twice, `Search` on a freshly constructed receiver succeeds and none
of the lists it builds (`ListDSs.refs`, `clusterRefs`, `ListNets.refsNet`,
`refsDVPG`, `refsDVS`, `ListVMs.refs`) holds a reference twice. -/
theorem Search_nodup_of_discovery_nodup (finder : Finder) (view : ViewService) (dc : String)
    (s : List String) (dss dscs nets mors : List ManagedObjectReference)
    (hdc : finder.DatacenterOrDefault dc = .ok ())
    (h1 : finder.DatastoreList (searchPattern s) = .ok dss)
    (h2 : finder.DatastoreClusterList (searchPattern s) = .ok dscs)
    (h3 : finder.NetworkList (searchPattern s) = .ok nets)
    (hvm : view.viewManager = .ok ()) (hcv : view.CreateContainerView = .ok ())
    (h4 : view.containerView = .ok mors)
    (n1 : dss.Nodup) (n2 : dscs.Nodup) (n3 : nets.Nodup) (n4 : mors.Nodup) :
    (∃ l n, NewListDSs.Search dc finder s = some (l, n) ∧ l.refs.Nodup ∧ l.clusterRefs.Nodup) ∧
    (∃ l n, NewListNets.Search dc finder s = some (l, n) ∧
      l.refsNet.Nodup ∧ l.refsDVPG.Nodup ∧ l.refsDVS.Nodup) ∧
    (∃ l n, NewListVMs.Search dc finder view s = some (l, n) ∧ l.refs.Nodup) := by
  refine ⟨?_, ?_, ?_⟩
  · refine ⟨_, _, ListDSs_Search_eq NewListDSs dc finder s dss dscs () hdc h1 h2, ?_, ?_⟩
    · simpa [NewListDSs] using n1
    · simpa [NewListDSs] using n2
  · refine ⟨_, _, ListNets_Search_eq NewListNets dc finder s nets () hdc h3, ?_, ?_, ?_⟩
    · simpa [NewListNets] using n3.filter _
    · simpa [NewListNets] using n3.filter _
    · simpa [NewListNets] using n3.filter _
  · refine ⟨_, _, ListVMs_Search_eq NewListVMs dc finder view s mors () () () hdc hvm hcv h4, ?_⟩
    · simpa [NewListVMs] using n4.filter _

/-- Witness of the amended C4 on the scope with three datastores, one
datastore cluster, one network and one virtual machine. -/
theorem Search_nodup_of_discovery_nodup_witness :
    (∃ l n, NewListDSs.Search "dc1" finderScenario ["*"] = some (l, n) ∧
      l.refs.Nodup ∧ l.clusterRefs.Nodup) ∧
    (∃ l n, NewListNets.Search "dc1" finderScenario ["*"] = some (l, n) ∧
      l.refsNet.Nodup ∧ l.refsDVPG.Nodup ∧ l.refsDVS.Nodup) ∧
    (∃ l n, NewListVMs.Search "dc1" finderScenario viewScenario ["*"] = some (l, n) ∧
      l.refs.Nodup) :=
  Search_nodup_of_discovery_nodup finderScenario viewScenario "dc1" ["*"]
    [dsA, dsB, ⟨"Datastore", "datastore-3"⟩] [⟨"StoragePod", "group-p1"⟩] [netN1]
    [⟨"VirtualMachine", "vm-1"⟩] rfl rfl rfl rfl rfl rfl rfl
    (by decide) (by decide) (by decide) (by decide)

/-- C5.  A successful `ListDSs.Search` on a freshly constructed `ListDSs`
had the finder return a datastore list and a datastore-cluster list; `refs`
and `clusterRefs` are these lists, the returned count is the sum of their
lengths, which is `len(refs) + len(clusterRefs)`; with 3 datastores and 1
cluster the lists have lengths 3 and 1 and the count is 4. -/
theorem ListDSs_Search_count (dc : String) (finder : Finder) (s : List String)
    (l : ListDSs) (n : Nat) (h : NewListDSs.Search dc finder s = some (l, n)) :
    ∃ dss dscs, finder.DatastoreList (searchPattern s) = .ok dss ∧
      finder.DatastoreClusterList (searchPattern s) = .ok dscs ∧
      l.refs = dss ∧ l.clusterRefs = dscs ∧
      n = dss.length + dscs.length ∧
      n = l.refs.length + l.clusterRefs.length ∧
      (dss.length = 3 → dscs.length = 1 →
        l.refs.length = 3 ∧ l.clusterRefs.length = 1 ∧ n = 4) := by
  obtain ⟨u, dss, dscs, hdc, h1, h2⟩ := ListDSs_Search_some NewListDSs dc finder s l n h
  rw [ListDSs_Search_eq NewListDSs dc finder s dss dscs u hdc h1 h2] at h
  simp only [NewListDSs, List.nil_append, Option.some.injEq, Prod.mk.injEq] at h
  obtain ⟨hl, hn⟩ := h
  subst hl hn
  refine ⟨dss, dscs, h1, h2, rfl, rfl, rfl, rfl, ?_⟩
  intro h3 h4
  simp [h3, h4]

/-- Witness of C5: pattern `*` over a scope with three datastores and one
datastore cluster. -/
theorem ListDSs_Search_count_witness :
    NewListDSs.Search "dc1" finderScenario ["*"] =
      some ({ refs := [dsA, dsB, ⟨"Datastore", "datastore-3"⟩],
              clusterRefs := [⟨"StoragePod", "group-p1"⟩] }, 4) ∧
    ∃ dss dscs, finderScenario.DatastoreList (searchPattern ["*"]) = .ok dss ∧
      finderScenario.DatastoreClusterList (searchPattern ["*"]) = .ok dscs ∧
      [dsA, dsB, ⟨"Datastore", "datastore-3"⟩] = dss ∧
      [(⟨"StoragePod", "group-p1"⟩ : ManagedObjectReference)] = dscs ∧
      4 = dss.length + dscs.length ∧
      4 = [dsA, dsB, (⟨"Datastore", "datastore-3"⟩ : ManagedObjectReference)].length
        + [(⟨"StoragePod", "group-p1"⟩ : ManagedObjectReference)].length ∧
      (dss.length = 3 → dscs.length = 1 →
        [dsA, dsB, (⟨"Datastore", "datastore-3"⟩ : ManagedObjectReference)].length = 3 ∧
        [(⟨"StoragePod", "group-p1"⟩ : ManagedObjectReference)].length = 1 ∧ 4 = 4) :=
  ⟨by decide, ListDSs_Search_count "dc1" finderScenario ["*"]
    { refs := [dsA, dsB, ⟨"Datastore", "datastore-3"⟩],
      clusterRefs := [⟨"StoragePod", "group-p1"⟩] } 4 (by decide)⟩

/-! ### Fingerprint -/

/-- Upper-casing a lower-case hexadecimal digit gives the upper-case digit,
which is in the class `[A-F0-9]`. -/
theorem nibble_upper : ∀ n : Fin 16,
    (ldigits.getD n.val '0').toUpper = udigits.getD n.val '0' ∧
    isHexUpper (udigits.getD n.val '0') = true := by
  decide

/-- Upper-casing the `%x` rendering of a byte gives its uppercase pair. -/
theorem ToUpper_lowerHex (b : Fin 256) : ToUpper (lowerHex b) = upperHexPair b := by
  have h1 := (nibble_upper ⟨b.val / 16, by omega⟩).1
  have h2 := (nibble_upper ⟨b.val % 16, by omega⟩).1
  simp only [ToUpper, lowerHex, upperHexPair, List.map_cons, List.map_nil] at *
  rw [h1, h2]

/-- The loop of `fingerprint`, started at the end of a prefix of the
rendering, appends the uppercase pair of each remaining byte. -/
theorem fingerprintLoop_eq (ds : List (Fin 256)) :
    ∀ (pre : List Char) (fp : List (List Char)),
    fingerprintLoop (pre ++ rawfingerprint ds) pre.length fp = fp ++ ds.map upperHexPair := by
  induction ds with
  | nil =>
    intro pre fp
    rw [fingerprintLoop]
    simp [rawfingerprint]
  | cons b bs ih =>
    intro pre fp
    rw [fingerprintLoop]
    have hlen : pre.length + 1 < (pre ++ rawfingerprint (b :: bs)).length := by
      simp [rawfingerprint, lowerHex]
    rw [if_pos hlen]
    have hraw : pre ++ rawfingerprint (b :: bs) = (pre ++ lowerHex b) ++ rawfingerprint bs := by
      simp [rawfingerprint]
    have hslice : ((pre ++ rawfingerprint (b :: bs)).drop pre.length).take 2 = lowerHex b := by
      simp [rawfingerprint, lowerHex]
    rw [hslice, ToUpper_lowerHex, hraw]
    have hl : pre.length + 2 = (pre ++ lowerHex b).length := by simp [lowerHex]
    rw [hl, ih]
    simp

/-- The groups collected from a digest are the uppercase pairs of its bytes. -/
theorem fingerprintGroups_eq (d : List (Fin 256)) : fingerprintGroups d = d.map upperHexPair := by
  have h := fingerprintLoop_eq d [] []
  simpa [fingerprintGroups] using h

/-- The specified fingerprint of a non-empty digest: the pair of the first
byte, then `:` and the pair of each further byte. -/
theorem colonPairs_cons (b : Fin 256) (rest : List (Fin 256)) :
    colonPairs (b :: rest) = upperHexPair b ++ rest.flatMap (fun c => ':' :: upperHexPair c) := by
  induction rest generalizing b with
  | nil => simp [colonPairs]
  | cons c cs ih => simp [colonPairs, ih c]

/-- Every `:`-pair sequence matches `(:[A-F0-9]{2})*$`. -/
theorem matchesGroups_pairs (rest : List (Fin 256)) :
    matchesGroups (rest.flatMap (fun c => ':' :: upperHexPair c)) = true := by
  induction rest with
  | nil => simp [matchesGroups]
  | cons c cs ih =>
    have h1 := (nibble_upper ⟨c.val / 16, by omega⟩).2
    have h2 := (nibble_upper ⟨c.val % 16, by omega⟩).2
    simp only [] at h1 h2
    simp only [List.flatMap_cons, upperHexPair, List.cons_append, List.nil_append,
      matchesGroups, h1, h2, decide_True, Bool.and_self, Bool.true_and]
    simpa [upperHexPair] using ih

/-- The formatting of `fingerprint` gives the specified fingerprint of the
digest, whatever its length. -/
theorem formatFingerprint_eq (d : List (Fin 256)) : formatFingerprint d = colonPairs d := by
  unfold formatFingerprint
  rw [fingerprintGroups_eq]
  cases d with
  | nil => rfl
  | cons b rest =>
    rw [colonPairs_cons]
    simp [Join, List.flatMap_def, List.map_map, Function.comp_def]

/-- Length of the specified fingerprint of a non-empty digest: two digits
per byte and a separator between neighbours. -/
theorem colonPairs_length (b : Fin 256) (rest : List (Fin 256)) :
    (colonPairs (b :: rest)).length = 3 * rest.length + 2 := by
  induction rest generalizing b with
  | nil => simp [colonPairs, upperHexPair]
  | cons c cs ih =>
    simp only [colonPairs, List.length_append, List.length_cons, ih c]
    simp only [upperHexPair, List.length_cons, List.length_nil]
    omega

/-- C6.  For a 20-byte digest the string that `fingerprint` formats is the
bytes written in order as two-digit uppercase hexadecimal pairs separated by
`:`; it matches `^[A-F0-9]{2}(:[A-F0-9]{2})*$`; it is made of exactly 20
groups of two characters (59 characters with the separators); and a `base`
whose `Head` request yields the digest returns that string. -/
theorem fingerprint_format (d : List (Fin 256)) (h : d.length = 20) :
    formatFingerprint d = colonPairs d ∧
    matchesFingerprint (formatFingerprint d) = true ∧
    (fingerprintGroups d).length = 20 ∧
    (∀ g ∈ fingerprintGroups d, g.length = 2) ∧
    (formatFingerprint d).length = 59 ∧
    (∀ b : Base, b.Head = .ok d → b.fingerprint = some (String.mk (colonPairs d))) := by
  refine ⟨formatFingerprint_eq d, ?_, ?_, ?_, ?_, ?_⟩
  · rw [formatFingerprint_eq]
    cases d with
    | nil => simp at h
    | cons b rest =>
      have h1 := (nibble_upper ⟨b.val / 16, by omega⟩).2
      have h2 := (nibble_upper ⟨b.val % 16, by omega⟩).2
      simp only [] at h1 h2
      rw [colonPairs_cons]
      simp only [upperHexPair, List.cons_append, List.nil_append, matchesFingerprint, h1, h2,
        Bool.true_and]
      simpa [upperHexPair] using matchesGroups_pairs rest
  · rw [fingerprintGroups_eq, List.length_map, h]
  · intro g hg
    rw [fingerprintGroups_eq, List.mem_map] at hg
    obtain ⟨b, _, rfl⟩ := hg
    rfl
  · rw [formatFingerprint_eq]
    cases d with
    | nil => simp at h
    | cons b rest =>
      rw [colonPairs_length]
      simp only [List.length_cons] at h
      omega
  · intro b hb
    simp [Base.fingerprint, hb, formatFingerprint_eq]

/-- Witness of C6 on a 20-byte digest. -/
theorem fingerprint_format_witness :
    digestScenario.length = 20 ∧
    colonPairs digestScenario =
      "DA:39:A3:EE:5E:6B:4B:0D:32:55:BF:EF:95:60:18:90:AF:D8:07:09".toList ∧
    formatFingerprint digestScenario = colonPairs digestScenario ∧
    matchesFingerprint (formatFingerprint digestScenario) = true ∧
    (fingerprintGroups digestScenario).length = 20 :=
  have h := fingerprint_format digestScenario (by decide)
  ⟨by decide, by decide, h.1, h.2.1, h.2.2.1⟩

/-! ### Console URL -/

/-- The characters of the template of `console`. -/
theorem consoleURL_data : consoleURL.data =
    ['h', 't', 't', 'p', ':', '/', '/', '%', 's', ':', '%', 's', '/', 'c', 'o', 'n', 's', 'o',
     'l', 'e', '/', '?', 'v', 'm', 'I', 'd', '=', '%', 's', '&', 'v', 'm', 'N', 'a', 'm', 'e',
     '=', '%', 's', '&', 'h', 'o', 's', 't', '=', '%', 's', '&', 's', 'e', 's', 's', 'i', 'o',
     'n', 'T', 'i', 'c', 'k', 'e', 't', '=', '%', 's', '&', 't', 'h', 'u', 'm', 'b', 'p', 'r',
     'i', 'n', 't', '=', '%', 's'] := by
  decide

/-- The template filled with seven operands. -/
theorem Sprintf_consoleURL (a b c d e f g : String) :
    Sprintf consoleURL [a, b, c, d, e, f, g] =
      some ("http://" ++ a ++ ":" ++ b ++ "/console/?vmId=" ++ c ++ "&vmName=" ++ d ++
        "&host=" ++ e ++ "&sessionTicket=" ++ f ++ "&thumbprint=" ++ g) := by
  simp only [Sprintf, consoleURL_data]
  simp [sprintfAux]
  apply String.ext
  simp

/-- The URL of `console` in terms of what `clonesession` and `fingerprint`
return. -/
theorem console_eq (b : Base) (vm : VirtualMachine) (fp : String)
    (hfp : b.fingerprint = some fp) :
    console b vm =
      some ("http://" ++ b.urlHost ++ ":" ++ "7331" ++ "/console/?vmId=" ++ vm.Self.value ++
        "&vmName=" ++ vm.Name ++ "&host=" ++ b.clientHost ++ "&sessionTicket=" ++
        b.clonesession ++ "&thumbprint=" ++ fp) := by
  simp only [console, hfp, Base.host, Sprintf_consoleURL]

/-- C7.  With the session token `token` and the fingerprint `fp`, `console`
returns the template with the host of the caller-supplied URL, the port 7331,
the identifier and the name of the machine, the host of the client's URL, the
token and the fingerprint put in place of its seven verbs, each as it is. -/
theorem console_url (b : Base) (vm : VirtualMachine) (token fp : String)
    (htok : b.AcquireCloneTicket = .ok token) (hfp : b.fingerprint = some fp) :
    console b vm =
      some ("http://" ++ b.urlHost ++ ":7331/console/?vmId=" ++ vm.Self.value ++
        "&vmName=" ++ vm.Name ++ "&host=" ++ b.clientHost ++ "&sessionTicket=" ++
        token ++ "&thumbprint=" ++ fp) := by
  rw [console_eq b vm fp hfp]
  have hc : b.clonesession = token := by simp [Base.clonesession, htok]
  rw [hc]
  congr 1
  apply String.ext
  simp

/-- The fingerprint that the example `base` returns. -/
theorem baseScenario_fingerprint :
    baseScenario.fingerprint =
      some "DA:39:A3:EE:5E:6B:4B:0D:32:55:BF:EF:95:60:18:90:AF:D8:07:09" := by
  have h : colonPairs digestScenario =
      "DA:39:A3:EE:5E:6B:4B:0D:32:55:BF:EF:95:60:18:90:AF:D8:07:09".toList := by decide
  simp only [Base.fingerprint, baseScenario, formatFingerprint_eq, h]
  rfl

/-- Witness of C7: a name with characters that a URL would escape is put in
as it is. -/
theorem console_url_witness :
    console baseScenario { vmScenario with Name := "web & db?" } =
      some ("http://" ++ "vcenter.example" ++ ":7331/console/?vmId=" ++ "vm-1" ++
        "&vmName=" ++ "web & db?" ++ "&host=" ++ "10.0.0.5" ++ "&sessionTicket=" ++
        "cst-VCT-52f8" ++ "&thumbprint=" ++
        "DA:39:A3:EE:5E:6B:4B:0D:32:55:BF:EF:95:60:18:90:AF:D8:07:09") :=
  console_url baseScenario { vmScenario with Name := "web & db?" } "cst-VCT-52f8"
    "DA:39:A3:EE:5E:6B:4B:0D:32:55:BF:EF:95:60:18:90:AF:D8:07:09" rfl baseScenario_fingerprint

/-- C8.  When the clone-session call fails, `clonesession` returns the empty
string and `console`, given a fingerprint, still returns the URL, with nothing
between `sessionTicket=` and `&thumbprint=`; when the call succeeds,
`clonesession` returns the ticket of the service. -/
theorem clonesession_failure_degrades (b : Base) (vm : VirtualMachine) :
    (∀ e, b.AcquireCloneTicket = .error e →
      b.clonesession = "" ∧
      ∀ fp, b.fingerprint = some fp →
        console b vm =
          some ("http://" ++ b.urlHost ++ ":7331/console/?vmId=" ++ vm.Self.value ++
            "&vmName=" ++ vm.Name ++ "&host=" ++ b.clientHost ++ "&sessionTicket=" ++
            "&thumbprint=" ++ fp)) ∧
    (∀ token, b.AcquireCloneTicket = .ok token → b.clonesession = token) := by
  refine ⟨?_, ?_⟩
  · intro e he
    have hc : b.clonesession = "" := by simp [Base.clonesession, he]
    refine ⟨hc, ?_⟩
    intro fp hfp
    rw [console_eq b vm fp hfp, hc]
    congr 1
    apply String.ext
    simp
  · intro token htok
    simp [Base.clonesession, htok]

/-- Witness of C8: with a failing clone-session call the console URL of the
example machine has an empty `sessionTicket` field. -/
theorem clonesession_failure_degrades_witness :
    baseCloneFails.clonesession = "" ∧
    console baseCloneFails vmScenario =
      some ("http://" ++ "vcenter.example" ++ ":7331/console/?vmId=" ++ "vm-1" ++
        "&vmName=" ++ "web" ++ "&host=" ++ "10.0.0.5" ++ "&sessionTicket=" ++
        "&thumbprint=" ++ "DA:39:A3:EE:5E:6B:4B:0D:32:55:BF:EF:95:60:18:90:AF:D8:07:09") ∧
    baseScenario.clonesession = "cst-VCT-52f8" :=
  have h := (clonesession_failure_degrades baseCloneFails vmScenario).1 "permission denied" rfl
  ⟨h.1, h.2 _ baseScenario_fingerprint,
    (clonesession_failure_degrades baseScenario vmScenario).2 "cst-VCT-52f8" rfl⟩

/-! ### Reports -/

/-- One blank line written before the last one comes out of the binds. -/
theorem bind_blank_line (o : Option (List String))
    (g : List String → Option (List String)) :
    (o.bind fun a => (g a).bind fun b =>
      (some (b ++ ["\n"])).bind fun tw => some (tw ++ ["\n"])) =
    Option.map (fun tw => tw ++ ["\n"])
      (o.bind fun a => (g a).bind fun b => (some b).bind fun tw => some (tw ++ ["\n"])) := by
  cases o with
  | none => rfl
  | some a =>
    simp only [Option.some_bind]
    cases g a <;> rfl

/-- The row loop writes, after what was written, the cells of every record
in order, when no row panics. -/
theorem printRows_flatMap {α : Type} (row : α → Option (List String))
    (cells : α → List String) (xs : List α) :
    ∀ tw : List String, (∀ x ∈ xs, row x = some (cells x)) →
    printRows row xs tw = some (tw ++ xs.flatMap cells) := by
  induction xs with
  | nil => intro tw _; simp [printRows]
  | cons x rest ih =>
    intro tw h
    simp only [printRows, h x (List.mem_cons_self _ _)]
    rw [ih _ (fun y hy => h y (List.mem_cons_of_mem _ hy))]
    simp

/-- C10.  `ListDSs.Print` and `ListNets.Print` return the report, and in it
every kind group stands on its own: after the heading come, group by group in
the order of the source, the cells of the records of each group whose
retrieval succeeded, and nothing for a group whose retrieval failed; the
groups after a failed one are still retrieved and written (the switch group,
when it succeeds, first writes one blank line).  Hence a failed retrieval of
one kind group gives the report in which that retrieval succeeded with no
records, for the datastore, datastore-cluster, network and port-group groups;
for the switch group the report with no records is the report of the failure
followed by that blank line. -/
theorem Print_failure_is_local (pc : Collector) (ByteSize : Int → String) (p : List String)
    (e : String) :
    (∀ l : ListDSs,
      l.Print ByteSize (.ok { pc with RetrieveDatastore := fun _ _ => .error e }) p =
      l.Print ByteSize (.ok { pc with RetrieveDatastore := fun _ _ => .ok [] }) p) ∧
    (∀ l : ListDSs,
      l.Print ByteSize (.ok { pc with RetrieveStoragePod := fun _ _ => .error e }) p =
      l.Print ByteSize (.ok { pc with RetrieveStoragePod := fun _ _ => .ok [] }) p) ∧
    (∀ l : ListNets,
      l.Print (.ok { pc with RetrieveNetwork := fun _ _ => .error e }) p =
      l.Print (.ok { pc with RetrieveNetwork := fun _ _ => .ok [] }) p) ∧
    (∀ l : ListNets,
      l.Print (.ok { pc with RetrieveDVPG := fun _ _ => .error e }) p =
      l.Print (.ok { pc with RetrieveDVPG := fun _ _ => .ok [] }) p) ∧
    (∀ l : ListNets,
      l.Print (.ok { pc with RetrieveDVS := fun _ _ => .ok [] }) p =
      (l.Print (.ok { pc with RetrieveDVS := fun _ _ => .error e }) p).map
        (fun tw => tw ++ ["\n"])) ∧
    (∀ (l : ListDSs) (cd : Datastore → List String) (cp : StoragePod → List String),
      (∀ dsts, pc.RetrieveDatastore l.refs (if p.length = 0 then ["summary"] else p) =
          .ok dsts →
        ∀ d ∈ dsts,
          datastoreRow ByteSize (if p.length = 0 then ["summary"] else p) d = some (cd d)) →
      (∀ pods, pc.RetrieveStoragePod l.clusterRefs (if p.length = 0 then ["summary"] else p) =
          .ok pods →
        ∀ d ∈ pods,
          storagePodRow ByteSize (if p.length = 0 then ["summary"] else p) d = some (cp d)) →
      l.Print ByteSize (.ok pc) p =
        some (["\n", "Reference\tName\tType\tCapacity\tFreeSpace\n",
            "---------\t----\t----\t--------\t---------\n"] ++
          groupCells (pc.RetrieveDatastore l.refs (if p.length = 0 then ["summary"] else p)) cd ++
          groupCells
            (pc.RetrieveStoragePod l.clusterRefs (if p.length = 0 then ["summary"] else p)) cp ++
          ["\n"])) ∧
    (∀ (l : ListNets) (cn cg : Network → List String)
      (cs : DistributedVirtualSwitch → List String),
      (∀ nets, pc.RetrieveNetwork l.refsNet (if p.length = 0 then ["summary"] else p) =
          .ok nets →
        ∀ n ∈ nets, networkRow n = some (cn n)) →
      (∀ dvpg, pc.RetrieveDVPG l.refsDVPG (if p.length = 0 then ["summary"] else p) =
          .ok dvpg →
        ∀ n ∈ dvpg, networkRow n = some (cg n)) →
      (∀ dvs, pc.RetrieveDVS l.refsDVS (if p.length = 0 then ["summary"] else p) = .ok dvs →
        ∀ n ∈ dvs, dvsRow (if p.length = 0 then ["summary"] else p) n = some (cs n)) →
      l.Print (.ok pc) p =
        some (["\n", "Reference\tName\tAccessible\n", "---------\t----\t----------\n"] ++
          groupCells (pc.RetrieveNetwork l.refsNet (if p.length = 0 then ["summary"] else p)) cn ++
          groupCells (pc.RetrieveDVPG l.refsDVPG (if p.length = 0 then ["summary"] else p)) cg ++
          (match pc.RetrieveDVS l.refsDVS (if p.length = 0 then ["summary"] else p) with
            | .error _ => []
            | .ok dvs => ["\n"] ++ dvs.flatMap cs) ++
          ["\n"])) := by
  refine ⟨?_, ?_, ?_, ?_, ?_, ?_, ?_⟩
  · intro l
    simp [ListDSs.Print, printRows]
  · intro l
    simp [ListDSs.Print, printRows]
  · intro l
    simp [ListNets.Print, printRows]
  · intro l
    simp [ListNets.Print, printRows]
  · intro l
    simp only [ListNets.Print, printRows]
    exact bind_blank_line _ _
  · intro l cd cp h1 h2
    simp only [ListDSs.Print]
    generalize (if p.length = 0 then ["summary"] else p) = P at h1 h2 ⊢
    cases hr1 : pc.RetrieveDatastore l.refs P with
    | error e1 =>
      cases hr2 : pc.RetrieveStoragePod l.clusterRefs P with
      | error e2 => simp [groupCells]
      | ok pods =>
        have f2 := fun tw => printRows_flatMap _ cp pods tw (h2 pods hr2)
        simp [groupCells, f2]
    | ok dsts =>
      have f1 := fun tw => printRows_flatMap _ cd dsts tw (h1 dsts hr1)
      cases hr2 : pc.RetrieveStoragePod l.clusterRefs P with
      | error e2 => simp [groupCells, f1]
      | ok pods =>
        have f2 := fun tw => printRows_flatMap _ cp pods tw (h2 pods hr2)
        simp [groupCells, f1, f2]
  · intro l cn cg cs h1 h2 h3
    simp only [ListNets.Print]
    generalize (if p.length = 0 then ["summary"] else p) = P at h1 h2 h3 ⊢
    have f1 : ∀ nets tw, pc.RetrieveNetwork l.refsNet P = .ok nets →
        printRows networkRow nets tw = some (tw ++ nets.flatMap cn) :=
      fun nets tw h => printRows_flatMap _ cn nets tw (h1 nets h)
    have f2 : ∀ dvpg tw, pc.RetrieveDVPG l.refsDVPG P = .ok dvpg →
        printRows networkRow dvpg tw = some (tw ++ dvpg.flatMap cg) :=
      fun dvpg tw h => printRows_flatMap _ cg dvpg tw (h2 dvpg h)
    have f3 : ∀ dvs tw, pc.RetrieveDVS l.refsDVS P = .ok dvs →
        printRows (dvsRow P) dvs tw = some (tw ++ dvs.flatMap cs) :=
      fun dvs tw h => printRows_flatMap _ cs dvs tw (h3 dvs h)
    rcases hr1 : pc.RetrieveNetwork l.refsNet P with e1 | nets <;>
    rcases hr2 : pc.RetrieveDVPG l.refsDVPG P with e2 | dvpg <;>
    rcases hr3 : pc.RetrieveDVS l.refsDVS P with e3 | dvs <;>
    simp only [hr1, hr2, hr3] at f1 f2 f3 <;>
    simp [groupCells, f1, f2, f3]

/-- Witness of C10.  The datastore retrieval fails and the report still has
the row of the datastore cluster, as with an empty datastore group; the
port-group retrieval fails and the report still has the row of the network
before it and the blank line, the row and the port-group name of the switch
after it. -/
theorem Print_failure_is_local_witness :
    ListDSs.Print { refs := [dsA], clusterRefs := [⟨"StoragePod", "group-p1"⟩] }
      (fun _ => "1.0GB")
      (.ok { collectorScenario with RetrieveDatastore := fun _ _ => .error "timeout" }) [] =
    some ["\n", "Reference\tName\tType\tCapacity\tFreeSpace\n",
      "---------\t----\t----\t--------\t---------\n",
      "StoragePod:group-p1\t", "group-p1\t", "-\t", "1.0GB\t", "1.0GB\t", "\n", "\n"] ∧
    ListNets.Print
      { refsNet := [netN1], refsDVPG := [⟨"DistributedVirtualPortgroup", "dvportgroup-3"⟩],
        refsDVS := [⟨"VmwareDistributedVirtualSwitch", "dvs-2"⟩] }
      (.ok { collectorScenario with RetrieveDVPG := fun _ _ => .error "timeout" }) [] =
    some ["\n", "Reference\tName\tAccessible\n", "---------\t----\t----------\n",
      "Network:network-1\t", "network-1\t", "true\t", "\n",
      "\n", "VmwareDistributedVirtualSwitch:dvs-2\t", "dvs-2\t", "-\t", "\n", "    pg-1\n",
      "\n"] := by
  refine ⟨?_, ?_⟩
  · rw [(Print_failure_is_local collectorScenario (fun _ => "1.0GB") [] "timeout").1]
    decide
  · have h := (Print_failure_is_local
        { collectorScenario with RetrieveDVPG := fun _ _ => .error "timeout" }
        (fun _ => "1.0GB") [] "timeout").2.2.2.2.2.2
      { refsNet := [netN1], refsDVPG := [⟨"DistributedVirtualPortgroup", "dvportgroup-3"⟩],
        refsDVS := [⟨"VmwareDistributedVirtualSwitch", "dvs-2"⟩] }
      (fun n => (networkRow n).getD []) (fun n => (networkRow n).getD [])
      (fun n => (dvsRow ["summary"] n).getD [])
      (by
        intro nets hn n hmem
        simp only [collectorScenario, Except.ok.injEq] at hn
        subst hn
        revert n hmem
        decide)
      (by
        intro dvpg hn
        simp at hn)
      (by
        intro dvs hn n hmem
        simp only [collectorScenario, Except.ok.injEq] at hn
        subst hn
        revert n hmem
        decide)
    rw [h]
    decide

/-! ### Selection of the machines to report -/

/-- The inner loop appends the machine once when some selector matches and
leaves the list as it is otherwise. -/
theorem selectLoop_eq (lowerRune : Char → Char) (vm : VirtualMachine) (search : List String) :
    ∀ fvms : List VirtualMachine,
    selectLoop lowerRune vm search fvms =
      if search.any (fun s => vmMatches lowerRune vm s) then fvms ++ [vm] else fvms := by
  induction search with
  | nil => intro fvms; simp [selectLoop]
  | cons s rest ih =>
    intro fvms
    by_cases h : vmMatches lowerRune vm s = true
    · simp [selectLoop, h]
    · simp only [selectLoop, h, List.any_cons, Bool.false_or, ih fvms]
      simp

/-- The filter loop appends to its accumulator the machines that some
selector matches, in order. -/
theorem filterLoop_eq (lowerRune : Char → Char) (search : List String)
    (vms : List VirtualMachine) :
    ∀ fvms : List VirtualMachine,
    vms.foldl (fun fvms vm => selectLoop lowerRune vm search fvms) fvms =
      fvms ++ selectedSpec lowerRune search vms := by
  induction vms with
  | nil => intro fvms; simp [selectedSpec]
  | cons vm rest ih =>
    intro fvms
    rw [List.foldl_cons, ih, selectLoop_eq]
    by_cases h : search.any (fun s => vmMatches lowerRune vm s) = true
    · simp [selectedSpec, h]
    · simp [selectedSpec, h]

/-- The condition of the filter, spelled out. -/
theorem vmMatches_iff (lowerRune : Char → Char) (vm : VirtualMachine) (s : String) :
    vmMatches lowerRune vm s = true ↔
      vm.Self.value = s ∨ ToLower lowerRune vm.Name = s ∨
      ∃ g, vm.guest = some g ∧
        (ToLower lowerRune g.HostName = s ∨ ToLower lowerRune g.IpAddress = s) := by
  unfold vmMatches
  cases hg : vm.guest with
  | none => simp
  | some g => simp [or_assoc]

/-- C11 (the code at the failing input).  The machine `vmWeb` has the name
`Web` and the guest host name `Web.lan`.  With the selector `Web`, equal to
its name, the list that `ShowVM.Print` reports is empty, and so it is with the
selector `Web.lan`, equal to its host name: the filter lower-cases the name
and the host name and compares them with the selector as typed.  The
lower-case selector `web` selects the machine.  This holds whatever the case
table of Unicode is, the texts being ASCII. -/
theorem pvms_misses_capitalised_name :
    vmWeb.Name = "Web" ∧
    ∀ lowerRune : Char → Char,
      ShowVM.pvms lowerRune ["Web"] [vmWeb] = [] ∧
      ShowVM.pvms lowerRune ["Web.lan"] [vmWeb] = [] ∧
      ShowVM.pvms lowerRune ["web"] [vmWeb] = [vmWeb] :=
  ⟨rfl, fun _ => ⟨rfl, rfl, rfl⟩⟩

/-- C12 (the code at the failing input).  `Search` without a pattern on a
freshly constructed receiver finds the machine `vm-1` and stores the default
pattern `*` as a selector; `ShowVM.Print` then selects no machine, because no
identifier, name, host name or address is the text `*`.  With no selector
stored it would select the machine. -/
theorem default_pattern_filters_everything :
    NewListVMs.Search "dc1" finderScenario viewScenario [] =
      some ({ refs := [⟨"VirtualMachine", "vm-1"⟩], search := ["*"] }, 1) ∧
    ∀ lowerRune : Char → Char,
      ShowVM.pvms lowerRune ["*"] [vmScenario] = [] ∧
      ShowVM.pvms lowerRune [] [vmScenario] = [vmScenario] :=
  ⟨by decide, fun _ => ⟨rfl, rfl⟩⟩

/-- The selection of `ShowVM.Print`.  With at least one selector, the list
`*pvms` is the list of the retrieved machines filtered, in the original order,
by: some selector equals the identifier, or the lower-cased name, or, when the
guest summary is present, the lower-cased host name or IP address.  It is a
sub-list of the retrieved machines, so a machine matched by several selectors
is not repeated. -/
theorem pvms_eq_filter (lowerRune : Char → Char) (search : List String)
    (vms : List VirtualMachine) (h : search ≠ []) :
    ShowVM.pvms lowerRune search vms = selectedSpec lowerRune search vms ∧
    (ShowVM.pvms lowerRune search vms).Sublist vms ∧
    (∀ vm, vm ∈ ShowVM.pvms lowerRune search vms ↔
      vm ∈ vms ∧ ∃ s ∈ search,
        vm.Self.value = s ∨ ToLower lowerRune vm.Name = s ∨
        ∃ g, vm.guest = some g ∧
          (ToLower lowerRune g.HostName = s ∨ ToLower lowerRune g.IpAddress = s)) ∧
    (∀ vm, (ShowVM.pvms lowerRune search vms).count vm ≤ vms.count vm) := by
  have hlen : search.length > 0 := List.length_pos.mpr h
  have heq : ShowVM.pvms lowerRune search vms = selectedSpec lowerRune search vms := by
    simp only [ShowVM.pvms, hlen, if_true]
    simpa using filterLoop_eq lowerRune search vms []
  have hsub : (ShowVM.pvms lowerRune search vms).Sublist vms := by
    rw [heq]
    exact List.filter_sublist vms
  refine ⟨heq, hsub, ?_, ?_⟩
  · intro vm
    rw [heq]
    simp only [selectedSpec, List.mem_filter, List.any_eq_true, vmMatches_iff]
  · intro vm
    exact hsub.count_le vm

/-- The block of a machine without guest summary is not written: the loop
body panics, whatever `collectReferences` and `console` return. -/
theorem reportMachine_no_guest
    (Retrieve : List ManagedObjectReference → Except String (List ManagedEntity))
    (order : List String) (b : Base) (vm : VirtualMachine) (hg : vm.guest = none) :
    ShowVM.reportMachine Retrieve order b vm = none := by
  unfold ShowVM.reportMachine
  cases collectReferences Retrieve order vm with
  | none => rfl
  | some out =>
    obtain ⟨host, network, dvp, datastore⟩ := out
    cases console b vm with
    | none => rfl
    | some url => simp [hg]

/-- The console URL of the machine `vmWeb` with the example `base`. -/
theorem console_vmWeb :
    console baseScenario vmWeb =
      some ("http://vcenter.example:7331/console/?vmId=vm-7&vmName=Web&host=10.0.0.5" ++
        "&sessionTicket=cst-VCT-52f8" ++
        "&thumbprint=DA:39:A3:EE:5E:6B:4B:0D:32:55:BF:EF:95:60:18:90:AF:D8:07:09") := by
  rw [console_eq baseScenario vmWeb _ baseScenario_fingerprint]
  rfl

/-- C17 (the code at the failing input).  The machine `vmScenario` has the
identifier `vm-1` and no guest summary.  The selector `vm-1` selects it (the
filter checks the guest pointer before reading it), but reporting it panics:
the block `Guest` reads the host name through the nil pointer, so
`ShowVM.Print` reports no machine, whatever the case table of Unicode is.  A
selected machine that has a guest summary, `vmWeb`, is reported, with its
guest summary and its two annotation lines. -/
theorem report_panics_without_guest :
    vmScenario.guest = none ∧
    ∀ lowerRune : Char → Char,
      ShowVM.pvms lowerRune ["vm-1"] [vmScenario] = [vmScenario] ∧
      selectedSpec lowerRune ["vm-1"] [vmScenario] = [vmScenario] ∧
      ShowVM.report lowerRune retrieveNames tableKinds baseScenario ["vm-1"] [vmScenario] =
        none ∧
      ShowVM.report lowerRune retrieveNames tableKinds baseScenario ["web"]
          [vmScenario, vmWeb] = none ∧
      ShowVM.report lowerRune retrieveNames tableKinds baseScenario ["vm-7"]
          [vmScenario, vmWeb] =
        some [{ vm := vmWeb, host := [⟨hostH1, "host-1"⟩], network := [⟨netN1, "network-1"⟩],
                dvp := [], datastore := [⟨dsA, "datastore-1"⟩],
                Guest := ⟨"Web.lan", "10.0.0.7"⟩, Storage := ⟨2048, 1024, 2048⟩,
                notes := ["\towner:\tops\n", "\tenv:\tprod:eu\n"],
                console :=
                  "http://vcenter.example:7331/console/?vmId=vm-7&vmName=Web&host=10.0.0.5" ++
                  "&sessionTicket=cst-VCT-52f8" ++
                  "&thumbprint=DA:39:A3:EE:5E:6B:4B:0D:32:55:BF:EF:95:60:18:90:AF:D8:07:09" }] := by
  refine ⟨rfl, fun lowerRune => ⟨rfl, rfl, ?_, ?_, ?_⟩⟩
  · have hp : ShowVM.pvms lowerRune ["vm-1"] [vmScenario] = [vmScenario] := rfl
    simp only [ShowVM.report, hp, ShowVM.reportLoop,
      reportMachine_no_guest retrieveNames tableKinds baseScenario vmScenario rfl]
  · have hp : ShowVM.pvms lowerRune ["web"] [vmScenario, vmWeb] = [vmScenario, vmWeb] := rfl
    simp only [ShowVM.report, hp, ShowVM.reportLoop,
      reportMachine_no_guest retrieveNames tableKinds baseScenario vmScenario rfl]
  · have hp : ShowVM.pvms lowerRune ["vm-7"] [vmScenario, vmWeb] = [vmWeb] := rfl
    have hc : collectReferences retrieveNames tableKinds vmWeb =
        some ([⟨hostH1, "host-1"⟩], [⟨netN1, "network-1"⟩], [], [⟨dsA, "datastore-1"⟩]) := by
      decide
    have hg : vmWeb.guest = some ⟨"Web.lan", "10.0.0.7"⟩ := rfl
    have hh : vmWeb.runtimeHost ≠ none := by decide
    have hs : vmWeb.Storage = some ⟨2048, 1024, 2048⟩ := rfl
    have ha : annotationRows (VirtualMachine.Annotation vmWeb) =
        some ["\towner:\tops\n", "\tenv:\tprod:eu\n"] := by decide
    simp [ShowVM.report, hp, ShowVM.reportLoop, ShowVM.reportMachine, hc, console_vmWeb, hg,
      hh, hs, ha]

/-! ### `EnvOverride` -/

/-- C14 (the code at the failing input).  The URL has no credentials and
the environment gives the user name `admin` and the password `secret`.
After `EnvOverride` the user name of the URL is empty, not `admin`: the user
name is only overridden when the URL already has user information, and the
password branch then builds the user information with an empty name.  With
the user name alone in the environment the URL stays without credentials.  A
URL that carries a user gets both values. -/
theorem EnvOverride_drops_username :
    urlPlain.User = none ∧
    GetEnvString envScenario "WMINFO_USERNAME" "" = "admin" ∧
    (EnvOverride envScenario urlPlain).User = some (UserPassword "" "secret") ∧
    Username (EnvOverride envScenario urlPlain).User = "" ∧
    (EnvOverride envUserOnly urlPlain).User = none ∧
    (EnvOverride envScenario { urlPlain with User := some (User "root") }).User =
      some (UserPassword "admin" "secret") := by
  decide

/-! ### References of a kind outside the table -/

/-- C15 (the code at the failing input).  The network list of `vmOpaque`
names a reference of kind `OpaqueNetwork`, which has no row in the dispatch
table: `addRef` reads the list of a nil entry, and `collectReferences` panics
for every projector and every iteration order instead of classifying the
reference. -/
theorem collectReferences_unknown_kind_panics :
    (collectRefs vmOpaque).isSome = false ∧
    ∀ (Retrieve : List ManagedObjectReference → Except String (List ManagedEntity))
      (order : List String), collectReferences Retrieve order vmOpaque = none := by
  have h : (collectRefs vmOpaque).isSome = false := by decide
  refine ⟨h, ?_⟩
  intro Retrieve order
  have hn : collectRefs vmOpaque = none := by
    cases hc : collectRefs vmOpaque with
    | none => rfl
    | some v => simp [hc] at h
  simp [collectReferences, hn]

/-! ### Classification in `ListNets.Search` -/

/-- The three kinds of `ListNets.Search` are distinct, so the references of
the three kinds together number as many as the references of any of them. -/
theorem three_kinds_length (nets : List ManagedObjectReference) :
    (nets.filter (fun r => r.type = "Network")).length
      + (nets.filter (fun r => r.type = "DistributedVirtualPortgroup")).length
      + (nets.filter (fun r => r.type = "VmwareDistributedVirtualSwitch")).length =
    (nets.filter (fun r => r.type = "Network" ∨ r.type = "VmwareDistributedVirtualSwitch" ∨
      r.type = "DistributedVirtualPortgroup")).length := by
  induction nets with
  | nil => rfl
  | cons x xs ih =>
    by_cases h1 : x.type = "Network"
    · simp [List.filter_cons, h1] at ih ⊢
      omega
    · by_cases h2 : x.type = "VmwareDistributedVirtualSwitch"
      · simp [List.filter_cons, h2] at ih ⊢
        omega
      · by_cases h3 : x.type = "DistributedVirtualPortgroup"
        · simp [List.filter_cons, h3] at ih ⊢
          omega
        · simp [List.filter_cons, h1, h2, h3] at ih ⊢
          omega

/-- C16.  When the finder answers with the list `nets`, `ListNets.Search`
succeeds; `refsNet`, `refsDVS` and `refsDVPG` are what they were followed by
the references of `nets` of kind `Network`, `VmwareDistributedVirtualSwitch`
and `DistributedVirtualPortgroup`, in the order of `nets`; a reference of
another kind goes to no list; and the count is the number of references
appended, which is the number of references of `nets` of one of the three
kinds. -/
theorem ListNets_Search_classifies (listnets : ListNets) (dc : String) (finder : Finder)
    (s : List String) (nets : List ManagedObjectReference) (u : Unit)
    (hdc : finder.DatacenterOrDefault dc = .ok u)
    (h3 : finder.NetworkList (searchPattern s) = .ok nets) :
    ∃ l n, listnets.Search dc finder s = some (l, n) ∧
      l.refsNet = listnets.refsNet ++ nets.filter (fun r => r.type = "Network") ∧
      l.refsDVS = listnets.refsDVS ++
        nets.filter (fun r => r.type = "VmwareDistributedVirtualSwitch") ∧
      l.refsDVPG = listnets.refsDVPG ++
        nets.filter (fun r => r.type = "DistributedVirtualPortgroup") ∧
      n + listnets.refsNet.length + listnets.refsDVS.length + listnets.refsDVPG.length =
        l.refsNet.length + l.refsDVS.length + l.refsDVPG.length ∧
      n = (nets.filter (fun r => r.type = "Network" ∨
        r.type = "VmwareDistributedVirtualSwitch" ∨
        r.type = "DistributedVirtualPortgroup")).length := by
  refine ⟨_, _, ListNets_Search_eq listnets dc finder s nets u hdc h3, rfl, rfl, rfl, ?_, ?_⟩
  · simp only [List.length_append]
    omega
  · rw [← three_kinds_length]
    omega

/-- Witness of C16: a network, a host system, a port group, a switch and a
second network; the host system is neither stored nor counted. -/
theorem ListNets_Search_classifies_witness :
    ∃ l n, NewListNets.Search "dc1"
finderMixed ["*"] = some (l, n) ∧
      l.refsNet = [netN1, ⟨"Network", "network-9"⟩] ∧
      l.refsDVS = [⟨"VmwareDistributedVirtualSwitch", "dvs-2"⟩] ∧
      l.refsDVPG = [⟨"DistributedVirtualPortgroup", "dvportgroup-3"⟩] ∧
      n = 4 := by
  obtain ⟨l, n, hs, h1, h2, h3, _, h5⟩ := ListNets_Search_classifies NewListNets "dc1"
    finderMixed ["*"] _ () rfl rfl
  refine ⟨l, n, hs, ?_, ?_, ?_, ?_⟩
  · rw [h1]; decide
  · rw [h2]; decide
  · rw [h3]; decide
  · rw [h5]; decide

/-! ### Order of the retrieval loop -/

/-- The retrieval loop, started with the keys `done` processed and run over
the keys `order`, ends with the keys `done ++ order` processed: the
destination of a processed table key holds the records retrieved for its
list, the destination of another table key is nil. -/
theorem processRefs_dest
    (Retrieve : List ManagedObjectReference → Except String (List ManagedEntity))
    (v : VRefs) (order : List String) :
    ∀ (done : List String) (r r2 : Resolved),
    (∀ k2 ∈ tableKinds, r.dest k2 = if k2 ∈ done then retrievedFor Retrieve v k2 else []) →
    processRefs Retrieve v order r = some r2 →
    ∀ k2 ∈ tableKinds,
      r2.dest k2 = if k2 ∈ done ++ order then retrievedFor Retrieve v k2 else [] := by
  induction order with
  | nil =>
    intro done r r2 hinv h
    simp only [processRefs, Option.some.injEq] at h
    subst h
    simpa using hinv
  | cons k ks ih =>
    intro done r r2 hinv h
    have happ : done ++ k :: ks = (done ++ [k]) ++ ks := by simp
    rw [happ]
    unfold processRefs at h
    have hskip : (retrievedFor Retrieve v k = []) →
        ∀ k2 ∈ tableKinds,
          r.dest k2 = if k2 ∈ done ++ [k] then retrievedFor Retrieve v k2 else [] := by
      intro hnil k2 hk2
      rw [hinv k2 hk2]
      by_cases hd : k2 ∈ done
      · simp [hd]
      · by_cases hkk : k2 = k
        · subst hkk
          simp [hd, hnil]
        · simp [hd, hkk]
    cases hv : v k with
    | none =>
      simp only [hv] at h
      exact ih (done ++ [k]) r r2 (hskip (by simp [retrievedFor, hv])) h
    | some refs =>
      cases refs with
      | nil =>
        simp only [hv] at h
        exact ih (done ++ [k]) r r2 (hskip (by simp [retrievedFor, hv])) h
      | cons x xs =>
        simp only [hv] at h
        cases hr : Retrieve (x :: xs) with
        | error e => simp [hr] at h
        | ok es =>
          simp only [hr] at h
          refine ih (done ++ [k]) (r.store k es) r2 ?_ h
          intro k2 hk2
          rw [dest_store r k k2 es hk2]
          by_cases hkk : k2 = k
          · subst hkk
            simp [retrievedFor, hv, hr]
          · rw [if_neg hkk, hinv k2 hk2]
            by_cases hd : k2 ∈ done
            · simp [hd]
            · simp [hd, hkk]

/-- The retrieval loop does not panic when every retrieval succeeds. -/
theorem processRefs_some
    (Retrieve : List ManagedObjectReference → Except String (List ManagedEntity))
    (v : VRefs) (hok : ∀ refs, ∃ es, Retrieve refs = .ok es) (order : List String) :
    ∀ r : Resolved, ∃ r2, processRefs Retrieve v order r = some r2 := by
  induction order with
  | nil => intro r; exact ⟨r, rfl⟩
  | cons k ks ih =>
    intro r
    unfold processRefs
    cases hv : v k with
    | none => exact ih r
    | some refs =>
      cases refs with
      | nil => exact ih r
      | cons x xs =>
        obtain ⟨es, hes⟩ := hok (x :: xs)
        simp only [hes]
        exact ih _

/-- With every retrieval succeeding and every table key visited, the four
returned lists are the records retrieved for the four reference lists. -/
theorem collectReferences_eq_retrieved
    (Retrieve : List ManagedObjectReference → Except String (List ManagedEntity))
    (order : List String) (vm : VirtualMachine) (v : VRefs)
    (horder : ∀ k ∈ tableKinds, k ∈ order) (hok : ∀ refs, ∃ es, Retrieve refs = .ok es)
    (hv : collectRefs vm = some v) :
    collectReferences Retrieve order vm =
      some (retrievedFor Retrieve v "HostSystem", retrievedFor Retrieve v "Network",
        retrievedFor Retrieve v "DistributedVirtualPortgroup",
        retrievedFor Retrieve v "Datastore") := by
  obtain ⟨r2, hr2⟩ := processRefs_some Retrieve v hok order Resolved.empty
  have hd := processRefs_dest Retrieve v order [] Resolved.empty r2
    (by
      intro k2 hk2
      simp only [tableKinds, List.mem_cons, List.mem_singleton, List.not_mem_nil,
        or_false] at hk2
      rcases hk2 with h | h | h | h <;> subst h <;> simp [Resolved.dest, Resolved.empty])
    hr2
  have e1 := hd "HostSystem" (by decide)
  have e2 := hd "Network" (by decide)
  have e3 := hd "DistributedVirtualPortgroup" (by decide)
  have e4 := hd "Datastore" (by decide)
  simp only [List.nil_append, horder "HostSystem" (by decide), horder "Network" (by decide),
    horder "DistributedVirtualPortgroup" (by decide), horder "Datastore" (by decide),
    if_true] at e1 e2 e3 e4
  simp only [Resolved.dest] at e1 e2 e3 e4
  simp at e1 e2 e3 e4
  simp [collectReferences, hv, hr2, e1, e2, e3, e4]

/-- C13.  For a projector whose retrievals all succeed, `collectReferences`
returns the same four lists whichever of two orders the four keys of the table
are iterated in; when the `addRef` calls succeed, the four lists are the
records retrieved for the four reference lists, which do not depend on the
order. -/
theorem collectReferences_order_independent
    (Retrieve : List ManagedObjectReference → Except String (List ManagedEntity))
    (order1 order2 : List String) (vm : VirtualMachine)
    (h1 : order1.Perm tableKinds) (h2 : order2.Perm tableKinds)
    (hok : ∀ refs, ∃ es, Retrieve refs = .ok es) :
    collectReferences Retrieve order1 vm = collectReferences Retrieve order2 vm ∧
    ∀ v, collectRefs vm = some v →
      collectReferences Retrieve order1 vm =
        some (retrievedFor Retrieve v "HostSystem", retrievedFor Retrieve v "Network",
          retrievedFor Retrieve v "DistributedVirtualPortgroup",
          retrievedFor Retrieve v "Datastore") := by
  have m1 : ∀ k ∈ tableKinds, k ∈ order1 := fun k hk => h1.symm.subset hk
  have m2 : ∀ k ∈ tableKinds, k ∈ order2 := fun k hk => h2.symm.subset hk
  refine ⟨?_, ?_⟩
  · cases hv : collectRefs vm with
    | none => simp [collectReferences, hv]
    | some v =>
      rw [collectReferences_eq_retrieved Retrieve order1 vm v m1 hok hv,
        collectReferences_eq_retrieved Retrieve order2 vm v m2 hok hv]
  · intro v hv
    exact collectReferences_eq_retrieved Retrieve order1 vm v m1 hok hv

/-- Witness of C13: the record with `datastore=[A,B]`, `network=[N1]`,
`host=H1`, resolved in the order of the table and in the reverse order. -/
theorem collectReferences_order_independent_witness :
    collectReferences retrieveNames tableKinds vmScenario =
      collectReferences retrieveNames tableKinds.reverse vmScenario ∧
    collectReferences retrieveNames tableKinds.reverse vmScenario =
      some ([⟨hostH1, "host-1"⟩], [⟨netN1, "network-1"⟩], [],
        [⟨dsA, "datastore-1"⟩, ⟨dsB, "datastore-2"⟩]) :=
  ⟨(collectReferences_order_independent retrieveNames tableKinds tableKinds.reverse vmScenario
      (List.Perm.refl _) (List.reverse_perm _) (fun refs => ⟨_, rfl⟩)).1, by decide⟩

/-! ### Annotations -/

/-- A text that contains the separator splits in two at its first
occurrence. -/
theorem SplitN2_of_mem (s : List Char) (h : ':' ∈ s) :
    SplitN2 s ':' = [keyOf s, valueOf s] ∧ s = keyOf s ++ ':' :: valueOf s ∧
    ':' ∉ keyOf s := by
  induction s with
  | nil => simp at h
  | cons c rest ih =>
    by_cases hc : c = ':'
    · subst hc
      simp [SplitN2, keyOf, valueOf, isNot]
    · have hrest : ':' ∈ rest := by
        rcases List.mem_cons.mp h with h1 | h1
        · exact absurd h1.symm hc
        · exact h1
      obtain ⟨i1, i2, i3⟩ := ih hrest
      have hn : isNot ':' c = true := by simp [isNot, hc]
      have hd : (c :: rest).dropWhile (isNot ':') = rest.dropWhile (isNot ':') := by
        rw [List.dropWhile_cons, if_pos hn]
      have ht : (c :: rest).takeWhile (isNot ':') = c :: rest.takeWhile (isNot ':') := by
        rw [List.takeWhile_cons, if_pos hn]
      refine ⟨?_, ?_, ?_⟩
      · unfold SplitN2 at i1 ⊢
        rw [hd]
        cases hdw : rest.dropWhile (isNot ':') with
        | nil =>
          rw [hdw] at i1
          simp at i1
        | cons y after =>
          simp only [keyOf, valueOf, ht, hd, hdw, List.drop_succ_cons, List.drop_zero]
      · simp only [keyOf, valueOf, ht, hd, List.cons_append]
        exact congrArg (fun l => c :: l) i2
      · simp only [keyOf, ht, List.mem_cons, not_or]
        exact ⟨fun e => hc e.symm, i3⟩

/-- A text without the separator is returned whole, as one element. -/
theorem SplitN2_of_not_mem (s : List Char) (h : ':' ∉ s) : SplitN2 s ':' = [s] := by
  have hd : s.dropWhile (isNot ':') = [] := by
    rw [List.dropWhile_eq_nil_iff]
    intro x hx
    have : x ≠ ':' := fun e => h (e ▸ hx)
    simpa [isNot] using this
  unfold SplitN2
  rw [hd]

/-- The row of a field is written exactly when the field contains `:`. -/
theorem annotationRow_isSome (field : List Char) :
    (annotationRow field).isSome = true ↔ ':' ∈ field := by
  constructor
  · intro h
    by_contra hn
    simp [annotationRow, SplitN2_of_not_mem field hn] at h
  · intro h
    simp [annotationRow, (SplitN2_of_mem field h).1]

/-- The lines of a list of fields that all contain `:`, after the lines
already written. -/
theorem annotationLoop_eq (fs : List (List Char)) :
    ∀ tw : List String, (∀ field ∈ fs, ':' ∈ field) →
    annotationLoop fs tw =
      some (tw ++ fs.map fun field =>
        "\t" ++ String.mk (keyOf field) ++ ":\t" ++ String.mk (valueOf field) ++ "\n") := by
  induction fs with
  | nil => intro tw _; simp [annotationLoop]
  | cons f rest ih =>
    intro tw h
    have hf : ':' ∈ f := h f (List.mem_cons_self _ _)
    have hrow : annotationRow f =
        some ("\t" ++ String.mk (keyOf f) ++ ":\t" ++ String.mk (valueOf f) ++ "\n") := by
      simp [annotationRow, (SplitN2_of_mem f hf).1]
    simp only [annotationLoop, hrow]
    rw [ih _ (fun field hfield => h field (List.mem_cons_of_mem _ hfield))]
    simp

/-- When the lines are all written, every field contains `:`. -/
theorem annotationLoop_isSome (fs : List (List Char)) :
    ∀ tw : List String, (annotationLoop fs tw).isSome = true →
    ∀ field ∈ fs, ':' ∈ field := by
  induction fs with
  | nil => intro tw _ field hfield; simp at hfield
  | cons f rest ih =>
    intro tw h field hfield
    cases hf : annotationRow f with
    | none => simp [annotationLoop, hf] at h
    | some row =>
      simp only [annotationLoop, hf] at h
      rcases List.mem_cons.mp hfield with h1 | h1
      · subst h1
        exact (annotationRow_isSome field).mp (by simp [hf])
      · exact ih _ h field h1

/-- C18.  When every whitespace-separated field of the annotation contains
`:`, the annotation loop of `ShowVM.Print` does not panic: it writes one line
per field, with the key (the text before the first `:` of the field) and the
value (everything after it); each field is its key, `:` and its value, and
there is no `:` in the key.  Conversely, when the loop writes all its lines,
every field contains `:`: a field without one makes the read of the value
part go out of range. -/
theorem annotationRows_in_range (note : String) :
    ((∀ field ∈ Fields note.data, ':' ∈ field) →
      annotationRows note =
        some ((Fields note.data).map fun field =>
          "\t" ++ String.mk (keyOf field) ++ ":\t" ++ String.mk (valueOf field) ++ "\n") ∧
      ∀ field ∈ Fields note.data,
        SplitN2 field ':' = [keyOf field, valueOf field] ∧
        field = keyOf field ++ ':' :: valueOf field ∧ ':' ∉ keyOf field) ∧
    ((annotationRows note).isSome = true →
      ∀ field ∈ Fields note.data, ':' ∈ field) := by
  refine ⟨?_, ?_⟩
  · intro h
    refine ⟨?_, fun field hfield => SplitN2_of_mem field (h field hfield)⟩
    simpa [annotationRows] using annotationLoop_eq (Fields note.data) [] h
  · intro h
    exact annotationLoop_isSome _ [] h

/-- Witness of C18: an annotation of two fields, the second with two colons;
and an annotation with a field without colon, where the loop panics. -/
theorem annotationRows_in_range_witness :
    annotationRows "owner:ops  env:prod:eu" =
      some ((Fields "owner:ops  env:prod:eu".data).map fun field =>
        "\t" ++ String.mk (keyOf field) ++ ":\t" ++ String.mk (valueOf field) ++ "\n") ∧
    annotationRows "owner:ops  env:prod:eu" = some ["\towner:\tops\n", "\tenv:\tprod:eu\n"] ∧
    annotationRows "owner:ops note" = none :=
  ⟨((annotationRows_in_range "owner:ops  env:prod:eu").1 (by decide)).1, by decide, by decide⟩

end Wminfo
